import Mathlib

/-!
# Odds arithmetic of the sge chain

A shallow embedding of `x/bet/types/odds_type.go`: the three odds conventions
(decimal, fractional, moneyline), each with `CalculatePayout` and
`CalculateBetAmount`.

The functions are written over the fixed-point decimal `sdk.Dec` and the big
integer `sdkmath.Int` of the Cosmos SDK (v0.46 line, the one the application
imports next to ibc-go v5).  Both are embedded by their underlying `big.Int`:

* an `sdkmath.Int` is a Lean `Int` (at most `MaxBitLen` = 256 bits when it
  comes out of a constructor);
* an `sdk.Dec` with underlying integer `i` stands for the number `i / 10^18`;
  it is embedded as the Lean `Int` `i`.

Operations of the SDK that panic ("Int overflow") return `none`.
A Go `string` is a `String`; the scanners walk over its characters.  They fail on
every byte outside the ASCII digits, letters, signs and separators, so walking
over characters and walking over bytes accept the same strings with the same
values.
-/

namespace Sge

/-! ## `math/big`: `(*Int).SetString` -/

/-- The variable `prev` of `nat.scan`: the previous character was a
separator (`'_'`), a digit (`'0'`) or anything else (`'.'`). -/
inductive ScanPrev where
  | sep
  | digit
  | other
  deriving DecidableEq, Repr

/-- Digit value of a character in `nat.scan`; `MaxBase + 1 = 63` for a character
that is no digit in any base. -/
def digitVal (b : Nat) (ch : Char) : Nat :=
  let c := ch.toNat
  if 48 ≤ c ∧ c ≤ 57 then c - 48
  else if 97 ≤ c ∧ c ≤ 122 then c - 97 + 10
  else if 65 ≤ c ∧ c ≤ 90 then (if b ≤ 36 then c - 65 + 10 else c - 65 + 36)
  else 63

/-- The digit loop of `nat.scan` (with `fracOk = false`): it consumes digits of
base `b` and, when the requested base is 0, separators `'_'`.  It returns the
accumulated value, `prev`, `invalSep`, the digit count and the unread input. -/
def scanLoop (base b : Nat) :
    List Char → Nat → ScanPrev → Bool → Nat → Nat × ScanPrev × Bool × Nat × List Char
  | [], z, prev, invalSep, count => (z, prev, invalSep, count, [])
  | ch :: rest, z, prev, invalSep, count =>
    if ch = '_' ∧ base = 0 then
      scanLoop base b rest z ScanPrev.sep (invalSep || decide (prev ≠ ScanPrev.digit)) count
    else if b ≤ digitVal b ch then
      (z, prev, invalSep, count, ch :: rest)
    else
      scanLoop base b rest (z * b + digitVal b ch) ScanPrev.digit invalSep (count + 1)

/-- Embedding of `nat.scan(r, base, false)` for `base` 0 or in 2..62: the scanned
value (`none` on `errNoDigits` or `errInvalSep`) and the unread input. -/
def natScan (base : Nat) (s : List Char) : Option Nat × List Char :=
  -- actual base, prefix, prev, count, input left for the digit loop
  let start : Nat × Option Char × ScanPrev × Nat × List Char :=
    if base = 0 then
      match s with
      | '0' :: ch :: rest =>
        if ch = 'b' ∨ ch = 'B' then (2, some 'b', ScanPrev.digit, 0, rest)
        else if ch = 'o' ∨ ch = 'O' then (8, some 'o', ScanPrev.digit, 0, rest)
        else if ch = 'x' ∨ ch = 'X' then (16, some 'x', ScanPrev.digit, 0, rest)
        else (8, some '0', ScanPrev.digit, 0, ch :: rest)
      | ['0'] => (10, none, ScanPrev.digit, 1, [])
      | _ => (10, none, ScanPrev.other, 0, s)
    else (base, none, ScanPrev.other, 0, s)
  match start with
  | (b, pfx, prev0, count0, input) =>
    match scanLoop base b input 0 prev0 false count0 with
    | (z, prev, invalSep, count, rest) =>
      let sepErr : Bool := invalSep || decide (prev = ScanPrev.sep)
      if count = 0 then
        if pfx = some '0' then
          -- only the octal prefix 0: decimal 0
          (if sepErr then none else some 0, rest)
        else (none, rest)
      else (if sepErr then none else some z, rest)

/-- Embedding of `new(big.Int).SetString(s, base)`: an optional sign, then
`nat.scan`, and the entire string must have been consumed. -/
def SetString (s : List Char) (base : Nat) : Option Int :=
  match s with
  | [] => none
  | ch :: rest =>
    let signed : Bool × List Char :=
      if ch = '-' then (true, rest) else if ch = '+' then (false, rest) else (false, s)
    match natScan base signed.2 with
    | (some abs, []) => some (if signed.1 then -(abs : Int) else (abs : Int))
    | _ => none

/-- Embedding of `strings.Split(s, sep)` for a one-character separator. -/
def Split (sep : Char) : List Char → List (List Char)
  | [] => [[]]
  | c :: cs =>
    if c = sep then [] :: Split sep cs
    else
      match Split sep cs with
      | [] => [[c]]
      | h :: t => (c :: h) :: t

/-! ## `sdkmath.Int` and `sdk.Dec` -/

/-- Constant `MaxBitLen` of `cosmossdk.io/math`. -/
def MaxBitLen : Nat := 256

/-- Constant `Precision` of `sdk.Dec`. -/
def Precision : Nat := 18

/-- Constant `maxDecBitLen = MaxBitLen + decimalTruncateBits` of `sdk.Dec`,
with `decimalTruncateBits = DecimalPrecisionBits - 1 = 59`. -/
def maxDecBitLen : Nat := MaxBitLen + 59

/-- Variable `precisionReuse = 10^Precision`. -/
def precisionReuse : Int := 10 ^ 18

/-- Variable `fivePrecision = precisionReuse / 2`. -/
def fivePrecision : Int := 5 * 10 ^ 17

/-- Test `i.BitLen() > n` of `math/big`: the absolute value of `i` needs more
than `n` bits, that is, shifting it right by `n` bits leaves something
(`|i| ≥ 2^n`). -/
def bitLenExceeds (i : Int) (n : Nat) : Bool := decide (i.natAbs >>> n ≠ 0)

/-- Embedding of `sdk.NewIntFromString`: `SetString(s, 0)` and the overflow check
against `MaxBitLen`; `none` when `ok` is false. -/
def NewIntFromString (s : List Char) : Option Int :=
  match SetString s 0 with
  | none => none
  | some i => if bitLenExceeds i MaxBitLen then none else some i

/-- Tail of `sdk.NewDecFromStr` once the integer and fractional digits are
combined: pad to `Precision` digits, read in base 10, check the bit length. -/
def decFromCombined (neg : Bool) (combinedStr : List Char) (lenDecs : Nat) : Option Int :=
  if lenDecs > Precision then none
  else
    match SetString (combinedStr ++ List.replicate (Precision - lenDecs) '0') 10 with
    | none => none
    | some combined =>
      if bitLenExceeds combined maxDecBitLen then none
      else some (if neg then -combined else combined)

/-- Embedding of `sdk.NewDecFromStr`; `none` when it returns an error. -/
def NewDecFromStr (s : List Char) : Option Int :=
  if s.length = 0 then none
  else
    let signed : Bool × List Char :=
      match s with
      | '-' :: rest => (true, rest)
      | _ => (false, s)
    if signed.2.length = 0 then none
    else
      match Split '.' signed.2 with
      | [intStr] => decFromCombined signed.1 intStr 0
      | [intStr, fracStr] =>
        if fracStr.length = 0 ∨ intStr.length = 0 then none
        else decFromCombined signed.1 (intStr ++ fracStr) fracStr.length
      | _ => none

/-- Embedding of `chopPrecisionAndRound` on a non-negative argument: divide by
`10^18`, rounding half to even. -/
def chopNonneg (d : Int) : Int :=
  let quo := d.tdiv precisionReuse
  let rem := d.tmod precisionReuse
  if rem = 0 then quo
  else if rem < fivePrecision then quo
  else if rem > fivePrecision then quo + 1
  else if quo % 2 = 0 then quo
  else quo + 1

/-- Embedding of `chopPrecisionAndRound`: a negative argument is negated, chopped
and negated back. -/
def chopPrecisionAndRound (d : Int) : Int :=
  if d < 0 then -chopNonneg (-d) else chopNonneg d

/-- Guard `if x.BitLen() > maxDecBitLen { panic("Int overflow") }`. -/
def checkDec (x : Int) : Option Int :=
  if bitLenExceeds x maxDecBitLen then none else some x

/-- Embedding of `sdk.NewDecFromInt(i)`: the integer scaled by `10^18`, no bit-length check. -/
def NewDecFromInt (i : Int) : Int := i * precisionReuse

/-- Embedding of `sdk.NewDec(i)`: the integer scaled by `10^18`. -/
def NewDec (i : Int) : Int := i * precisionReuse

/-- Embedding of `sdk.OneDec()`. -/
def OneDec : Int := precisionReuse

/-- Embedding of `sdk.ZeroDec()`. -/
def ZeroDec : Int := 0

/-- Embedding of `Dec.Add`: the sum, then the bit-length check. -/
def Dec.Add (d d2 : Int) : Option Int := checkDec (d + d2)

/-- Embedding of `Dec.Sub`: the difference, then the bit-length check. -/
def Dec.Sub (d d2 : Int) : Option Int := checkDec (d - d2)

/-- Embedding of `Dec.Mul`: multiply, chop with rounding, check the bit length. -/
def Dec.Mul (d d2 : Int) : Option Int := checkDec (chopPrecisionAndRound (d * d2))

/-- Embedding of `Dec.MulInt`: multiply by an integer without rounding, check the
bit length. -/
def Dec.MulInt (d i : Int) : Option Int := checkDec (d * i)

/-- The value `Dec.Quo` computes before its bit-length check: multiply the
precision twice, truncated `big.Int.Quo`, chop with rounding. -/
def Dec.quoRaw (d d2 : Int) : Int :=
  chopPrecisionAndRound ((d * precisionReuse * precisionReuse).tdiv d2)

/-- Embedding of `Dec.Quo`: `big.Int.Quo` panics on a zero divisor; the chopped quotient is
checked against `maxDecBitLen`. -/
def Dec.Quo (d d2 : Int) : Option Int :=
  if d2 = 0 then none else checkDec (Dec.quoRaw d d2)

/-- Embedding of `Dec.QuoInt`: truncated `big.Int.Quo` by an integer, no bit-length check. -/
def Dec.QuoInt (d i : Int) : Option Int :=
  if i = 0 then none else some (d.tdiv i)

/-- Embedding of `Dec.Abs`. -/
def Dec.Abs (d : Int) : Int := (d.natAbs : Int)

/-- The number an `sdk.Dec` stands for. -/
def Dec.toRat (d : Int) : ℚ := (d : ℚ) / 10 ^ 18

/-! ## `x/bet/types/odds_type.go` -/

/-- The registered errors the odds functions return. -/
inductive OddsError where
  | ErrDecimalOddsIncorrectFormat
  | ErrDecimalOddsShouldBePositive
  | ErrDecimalOddsCanNotBeLessThanOne
  | ErrFractionalOddsIncorrectFormat
  | ErrFractionalOddsCanNotBeNegativeOrZero
  | ErrMoneylineOddsIncorrectFormat
  | ErrMoneylineOddsCanNotBeZero
  deriving DecidableEq, Repr

/-- Outcome of a call of type `(sdk.Dec, error)`. -/
inductive Outcome where
  /-- the call returns `(v, nil)` -/
  | ok (v : Int)
  /-- the call returns `(sdk.ZeroDec(), e)` -/
  | error (e : OddsError)
  /-- the call panics inside the decimal arithmetic ("Int overflow") -/
  | overflow
  deriving DecidableEq, Repr

/-- Lift the result of a decimal operation: a panic propagates. -/
def Outcome.ofDec : Option Int → Outcome
  | some v => Outcome.ok v
  | none => Outcome.overflow

/-- Embedding of `(*decimalOdds).CalculatePayout` (odds_type.go, lines 24-49). -/
def decimalOdds.CalculatePayout (oddsVal : String) (amount : Int) : Outcome :=
  match NewDecFromStr oddsVal.data with
  | none => Outcome.error OddsError.ErrDecimalOddsIncorrectFormat
  | some oddsDecVal =>
    if ¬ (0 < oddsDecVal) then Outcome.error OddsError.ErrDecimalOddsShouldBePositive
    else if oddsDecVal ≤ OneDec then Outcome.error OddsError.ErrDecimalOddsCanNotBeLessThanOne
    else Outcome.ofDec (Dec.MulInt oddsDecVal amount)

/-- Embedding of `(*decimalOdds).CalculateBetAmount` (odds_type.go, lines 52-77). -/
def decimalOdds.CalculateBetAmount (oddsVal : String) (payoutProfit : Int) : Outcome :=
  match NewDecFromStr oddsVal.data with
  | none => Outcome.error OddsError.ErrDecimalOddsIncorrectFormat
  | some oddsDecVal =>
    if ¬ (0 < oddsDecVal) then Outcome.error OddsError.ErrDecimalOddsShouldBePositive
    else if oddsDecVal ≤ OneDec then Outcome.error OddsError.ErrDecimalOddsCanNotBeLessThanOne
    else Outcome.ofDec ((Dec.Sub oddsDecVal OneDec).bind (Dec.Quo payoutProfit))

/-- The checks that open both fractional operations, the same text in
`CalculatePayout` (lines 85-110) and in `CalculateBetAmount` (lines 128-153):
split on `"/"`, read both parts with `sdk.NewIntFromString`, require both to be
positive.  It returns `(firstPart, secondPart)` or the error of the first
failing check. -/
def fractionalOdds.parts (oddsVal : String) : Except OddsError (Int × Int) :=
  match Split '/' oddsVal.data with
  | [first, second] =>
    match NewIntFromString first with
    | none => Except.error OddsError.ErrFractionalOddsIncorrectFormat
    | some firstPart =>
      match NewIntFromString second with
      | none => Except.error OddsError.ErrFractionalOddsIncorrectFormat
      | some secondPart =>
        if ¬ (0 < firstPart) ∨ ¬ (0 < secondPart) then
          Except.error OddsError.ErrFractionalOddsCanNotBeNegativeOrZero
        else Except.ok (firstPart, secondPart)
  | _ => Except.error OddsError.ErrFractionalOddsIncorrectFormat

/-- Embedding of `(*fractionalOdds).CalculatePayout` (odds_type.go, lines 84-124):
the checks, then `amount * firstPart / secondPart` in decimals, added to the
amount. -/
def fractionalOdds.CalculatePayout (oddsVal : String) (amount : Int) : Outcome :=
  match fractionalOdds.parts oddsVal with
  | Except.error e => Outcome.error e
  | Except.ok (firstPart, secondPart) =>
    Outcome.ofDec <|
      ((Dec.Mul (NewDecFromInt amount) (NewDecFromInt firstPart)).bind
        (fun x => Dec.Quo x (NewDecFromInt secondPart))).bind
        (fun profit => Dec.Add (NewDecFromInt amount) profit)

/-- Embedding of `(*fractionalOdds).CalculateBetAmount` (odds_type.go, lines
127-164): the checks, then `payoutProfit * secondPart / firstPart`. -/
def fractionalOdds.CalculateBetAmount (oddsVal : String) (payoutProfit : Int) : Outcome :=
  match fractionalOdds.parts oddsVal with
  | Except.error e => Outcome.error e
  | Except.ok (firstPart, secondPart) =>
    Outcome.ofDec <|
      (Dec.Mul payoutProfit (NewDecFromInt secondPart)).bind
        (fun x => Dec.Quo x (NewDecFromInt firstPart))

/-- The checks that open both moneyline operations, the same text in
`CalculatePayout` (lines 173-182) and in `CalculateBetAmount` (lines 208-217):
read the value with `sdk.NewIntFromString`, reject zero. -/
def moneylineOdds.value (oddsVal : String) : Except OddsError Int :=
  match NewIntFromString oddsVal.data with
  | none => Except.error OddsError.ErrMoneylineOddsIncorrectFormat
  | some oddsValue =>
    if oddsValue = 0 then Except.error OddsError.ErrMoneylineOddsCanNotBeZero
    else Except.ok oddsValue

/-- Embedding of `(*moneylineOdds).CalculatePayout` (odds_type.go, lines 171-203):
positive odds divide `amount * odds` by 100 with `Quo`, negative odds divide
`amount * 100` by the odds with `QuoInt`; the absolute value is the profit. -/
def moneylineOdds.CalculatePayout (oddsVal : String) (amount : Int) : Outcome :=
  match moneylineOdds.value oddsVal with
  | Except.error e => Outcome.error e
  | Except.ok oddsValue =>
    let profit : Option Int :=
      if 0 < oddsValue then
        ((Dec.Mul (NewDecFromInt amount) (NewDecFromInt oddsValue)).bind
          (fun x => Dec.Quo x (NewDec 100))).map Dec.Abs
      else
        ((Dec.Mul (NewDecFromInt amount) (NewDec 100)).bind
          (fun x => Dec.QuoInt x oddsValue)).map Dec.Abs
    Outcome.ofDec (profit.bind (fun p => Dec.Add (NewDecFromInt amount) p))

/-- Embedding of `(*moneylineOdds).CalculateBetAmount` (odds_type.go, lines
206-237). -/
def moneylineOdds.CalculateBetAmount (oddsVal : String) (payoutProfit : Int) : Outcome :=
  match moneylineOdds.value oddsVal with
  | Except.error e => Outcome.error e
  | Except.ok oddsValue =>
    Outcome.ofDec <|
      if 0 < oddsValue then
        ((Dec.Mul payoutProfit (NewDec 100)).bind
          (fun x => Dec.Quo x (NewDecFromInt oddsValue))).map Dec.Abs
      else
        ((Dec.Mul payoutProfit (NewDecFromInt oddsValue)).bind
          (fun x => Dec.Quo x (NewDec 100))).map Dec.Abs

/-- Embedding of `Dec.TruncateInt`: the decimal cut to its integer part with the
truncated `big.Int.Quo` by `10^18`, that is, toward zero. -/
def Dec.TruncateInt (d : Int) : Int := d.tdiv precisionReuse

/-- Embedding of `sdk.NewInt(n)`. -/
def NewInt (n : Int) : Int := n

/-- Embedding of `sdk.OneInt()`. -/
def OneInt : Int := 1

/-- Embedding of `sdk.ZeroInt()`. -/
def ZeroInt : Int := 0

/-- Embedding of `sdk.MustNewDecFromStr`: `sdk.NewDecFromStr`, with a panic
(`none`) where that returns an error. -/
def MustNewDecFromStr (s : String) : Option Int := NewDecFromStr s.data

/-- Test `i.IsInt64()` of `math/big`, the guard of `sdkmath.Int.Int64()`, which
panics ("Int64() out of bound") on a value outside the `int64` range. -/
def IsInt64 (i : Int) : Bool := decide (-9223372036854775808 ≤ i ∧ i ≤ 9223372036854775807)

/-! ## Parameters: `x/house/types/params.go` and `x/bet/types/params.go` -/

/-- Modelled from the spec: the struct `PlacementConstraints` of the bet module
is declared in generated code that is not among the sources; its two fields,
both `sdkmath.Int`, are the ones `NewParams` sets and
`validatePlacementConstraints` reads. -/
structure bet.PlacementConstraints where
  MinAmount : Int
  BetFee : Int
  deriving DecidableEq, Repr

/-- A value handed to a validation function as `interface{}`: the dynamic types
the parameter stores of the two modules hold, and any other type. A `uint32`
is a natural number below `2^32`. -/
inductive ParamValue where
  | int (v : Int)
  | dec (v : Int)
  | uint32 (v : Nat)
  | placementConstraints (v : bet.PlacementConstraints)
  | other
  deriving DecidableEq, Repr

/-- The errors the house parameter validation builds with `fmt.Errorf`, by
message: "invalid parameter type", "minimum deposit must be positive and more
than one", "house participation fee cannot be lower than 0". -/
inductive house.ParamError where
  | invalidParameterType
  | minimumDepositNotMoreThanOne
  | participationFeeLowerThanZero
  deriving DecidableEq, Repr

/-- Modelled from the spec: the struct `Params` of the house module is declared
in generated code that is not among the sources; its fields are the ones
`NewParams` sets, `MinDeposit` an `sdkmath.Int` and `HouseParticipationFee` an
`sdk.Dec`. -/
structure house.Params where
  MinDeposit : Int
  HouseParticipationFee : Int
  deriving DecidableEq, Repr

/-- Constant `DefaultMinDeposit` of the house module. -/
def house.DefaultMinDeposit : Int := 100

/-- Constant `DefaultHouseParticipationFee` of the house module. -/
def house.DefaultHouseParticipationFee : String := "0.1"

/-- Embedding of `NewParams` of the house module. -/
def house.NewParams (minDeposit houseParticipationFee : Int) : house.Params :=
  { MinDeposit := minDeposit, HouseParticipationFee := houseParticipationFee }

/-- Embedding of `DefaultParams` of the house module; `none` if
`sdk.MustNewDecFromStr` panicked. -/
def house.DefaultParams : Option house.Params :=
  (MustNewDecFromStr house.DefaultHouseParticipationFee).map
    (house.NewParams (NewInt house.DefaultMinDeposit))

/-- Embedding of `validateMinimumDeposit` (house params.go, lines 81-93); `none`
is the `nil` error. -/
def house.validateMinimumDeposit (i : ParamValue) : Option house.ParamError :=
  match i with
  | ParamValue.int v =>
    if v ≤ OneInt then some house.ParamError.minimumDepositNotMoreThanOne else none
  | _ => some house.ParamError.invalidParameterType

/-- Embedding of `validateHouseParticipationFee` (house params.go, lines 95-107);
`none` is the `nil` error. -/
def house.validateHouseParticipationFee (i : ParamValue) : Option house.ParamError :=
  match i with
  | ParamValue.dec v =>
    if v < ZeroDec then some house.ParamError.participationFeeLowerThanZero else none
  | _ => some house.ParamError.invalidParameterType

/-- Embedding of `Params.Validate` of the house module (lines 72-79). -/
def house.Params.Validate (p : house.Params) : Option house.ParamError :=
  match house.validateMinimumDeposit (ParamValue.int p.MinDeposit) with
  | some err => some err
  | none => house.validateHouseParticipationFee (ParamValue.dec p.HouseParticipationFee)

/-- The errors the bet parameter validation builds with `fmt.Errorf`, by
message: `ErrTextInvalidParamType`, `ErrTextBatchSettlementCountMustBePositive`,
`ErrTextMaxBetUIDQueryCountMustBePositive`, "minimum bet amount must be more
than one", "minimum bet fee must be positive". -/
inductive bet.ParamError where
  | invalidParamType
  | batchSettlementCountMustBePositive
  | maxBetUIDQueryCountMustBePositive
  | minAmountNotMoreThanOne
  | betFeeNegative
  deriving DecidableEq, Repr

/-- Outcome of a bet validation function of type `error`. -/
inductive bet.ValidateOutcome where
  /-- the call returns `nil` -/
  | nil
  /-- the call returns the error `e` -/
  | error (e : bet.ParamError)
  /-- the call panics while it formats its error ("Int64() out of bound") -/
  | outOfBound
  deriving DecidableEq, Repr

/-- Modelled from the spec: the struct `Params` of the bet module is declared in
generated code that is not among the sources; its fields are the ones
`NewParams` sets, two `uint32` counts and the placement constraints. -/
structure bet.Params where
  BatchSettlementCount : Nat
  MaxBetByUidQueryCount : Nat
  PlacementConstraints : bet.PlacementConstraints
  deriving DecidableEq, Repr

/-- Constant `batchSettlementCount` of the bet module. -/
def bet.batchSettlementCount : Nat := 1000

/-- Constant `maxBetByUIDQueryCount` of the bet module. -/
def bet.maxBetByUIDQueryCount : Nat := 10

/-- Variable `defaultMinBetAmount` of the bet module. -/
def bet.defaultMinBetAmount : Int := NewInt 1000000

/-- Variable `defaultBetFee` of the bet module. -/
def bet.defaultBetFee : Int := NewInt 100

/-- Embedding of `NewParams` of the bet module. -/
def bet.NewParams : bet.Params :=
  { BatchSettlementCount := bet.batchSettlementCount,
    MaxBetByUidQueryCount := bet.maxBetByUIDQueryCount,
    PlacementConstraints :=
      { MinAmount := bet.defaultMinBetAmount, BetFee := bet.defaultBetFee } }

/-- Embedding of `DefaultParams` of the bet module. -/
def bet.DefaultParams : bet.Params := bet.NewParams

/-- Embedding of `validateBatchSettlementCount` (bet params.go, lines 107-118). -/
def bet.validateBatchSettlementCount (i : ParamValue) : bet.ValidateOutcome :=
  match i with
  | ParamValue.uint32 v =>
    if v ≤ 0 then
      bet.ValidateOutcome.error bet.ParamError.batchSettlementCountMustBePositive
    else bet.ValidateOutcome.nil
  | _ => bet.ValidateOutcome.error bet.ParamError.invalidParamType

/-- Embedding of `validateMaxBetByUIDQueryCount` (bet params.go, lines 120-131). -/
def bet.validateMaxBetByUIDQueryCount (i : ParamValue) : bet.ValidateOutcome :=
  match i with
  | ParamValue.uint32 v =>
    if v ≤ 0 then
      bet.ValidateOutcome.error bet.ParamError.maxBetUIDQueryCountMustBePositive
    else bet.ValidateOutcome.nil
  | _ => bet.ValidateOutcome.error bet.ParamError.invalidParamType

/-- Embedding of `validatePlacementConstraints` (bet params.go, lines 133-148).
Each error message is formatted with `Int64()` of the offending amount, which
panics when the amount does not fit in an `int64`. -/
def bet.validatePlacementConstraints (i : ParamValue) : bet.ValidateOutcome :=
  match i with
  | ParamValue.placementConstraints v =>
    if v.MinAmount ≤ OneInt then
      if IsInt64 v.MinAmount then
        bet.ValidateOutcome.error bet.ParamError.minAmountNotMoreThanOne
      else bet.ValidateOutcome.outOfBound
    else if v.BetFee < ZeroInt then
      if IsInt64 v.BetFee then bet.ValidateOutcome.error bet.ParamError.betFeeNegative
      else bet.ValidateOutcome.outOfBound
    else bet.ValidateOutcome.nil
  | _ => bet.ValidateOutcome.error bet.ParamError.invalidParamType

/-- Embedding of `Params.Validate` of the bet module (lines 81-96): the three
checks in order, the first outcome that is not `nil` is returned. -/
def bet.Params.Validate (p : bet.Params) : bet.ValidateOutcome :=
  match bet.validateBatchSettlementCount (ParamValue.uint32 p.BatchSettlementCount) with
  | bet.ValidateOutcome.nil =>
    match bet.validateMaxBetByUIDQueryCount (ParamValue.uint32 p.MaxBetByUidQueryCount) with
    | bet.ValidateOutcome.nil =>
      match bet.validatePlacementConstraints
          (ParamValue.placementConstraints p.PlacementConstraints) with
      | bet.ValidateOutcome.nil => bet.ValidateOutcome.nil
      | err => err
    | err => err
  | err => err

/-! ## Facts about the decimal arithmetic -/

theorem bitLenExceeds_eq_false {x : Int} {n : Nat} (h : |x| < 2 ^ n) :
    bitLenExceeds x n = false := by
  have h1 : x.natAbs < 2 ^ n := by
    have : ((x.natAbs : Int)) < ((2 ^ n : Nat) : Int) := by
      rw [Int.natCast_natAbs]; push_cast; exact h
    exact_mod_cast this
  simp [bitLenExceeds, Nat.shiftRight_eq_div_pow, Nat.div_eq_of_lt h1]

theorem bitLenExceeds_eq_true {x : Int} {n : Nat} (h : 2 ^ n ≤ |x|) :
    bitLenExceeds x n = true := by
  have h1 : 2 ^ n ≤ x.natAbs := by
    have : ((2 ^ n : Nat) : Int) ≤ ((x.natAbs : Int)) := by
      rw [Int.natCast_natAbs]; push_cast; exact h
    exact_mod_cast this
  have h2 : 0 < x.natAbs / 2 ^ n := Nat.div_pos h1 (by positivity)
  simp [bitLenExceeds, Nat.shiftRight_eq_div_pow]
  omega

theorem abs_lt_of_bitLenExceeds_eq_false {x : Int} {n : Nat}
    (h : bitLenExceeds x n = false) : |x| < 2 ^ n := by
  by_contra hc
  rw [bitLenExceeds_eq_true (not_lt.mp hc)] at h
  exact Bool.noConfusion h

theorem checkDec_eq_some {x : Int} (h : |x| < 2 ^ maxDecBitLen) : checkDec x = some x := by
  simp [checkDec, bitLenExceeds_eq_false h]

theorem checkDec_eq_none {x : Int} (h : ¬ |x| < 2 ^ maxDecBitLen) : checkDec x = none := by
  simp [checkDec, bitLenExceeds_eq_true (not_lt.mp h)]

theorem chopNonneg_spec (d : Int) (hd : 0 ≤ d) :
    0 ≤ chopNonneg d ∧ -(5 * 10 ^ 17) ≤ chopNonneg d * 10 ^ 18 - d ∧
      chopNonneg d * 10 ^ 18 - d ≤ 5 * 10 ^ 17 := by
  unfold chopNonneg
  rw [Int.tdiv_eq_ediv hd (by norm_num [precisionReuse]),
    Int.tmod_eq_emod hd (by norm_num [precisionReuse])]
  simp only [precisionReuse, fivePrecision]
  norm_num
  split_ifs <;> omega

theorem chop_bound (d : Int) :
    |chopPrecisionAndRound d * 10 ^ 18 - d| ≤ 5 * 10 ^ 17 := by
  unfold chopPrecisionAndRound
  rw [abs_le]
  split_ifs with h
  · have := chopNonneg_spec (-d) (by omega)
    omega
  · have := chopNonneg_spec d (by omega)
    omega

theorem chop_mul (k : Int) : chopPrecisionAndRound (k * 10 ^ 18) = k := by
  have := chop_bound (k * 10 ^ 18)
  rw [abs_le] at this
  omega

theorem chop_neg (d : Int) : chopPrecisionAndRound (-d) = -chopPrecisionAndRound d := by
  unfold chopPrecisionAndRound
  rcases lt_trichotomy d 0 with h | h | h
  · rw [if_neg (by omega), if_pos h]; simp
  · subst h; simp [chopNonneg]
  · rw [if_pos (by omega), if_neg (by omega)]; simp

theorem chop_nonneg {d : Int} (hd : 0 ≤ d) : 0 ≤ chopPrecisionAndRound d := by
  unfold chopPrecisionAndRound
  rw [if_neg (by omega)]
  exact (chopNonneg_spec d hd).1

theorem abs_tmod_lt (a b : Int) (hb : b ≠ 0) : |a.tmod b| < |b| := by
  have key : ∀ a c : Int, 0 < c → |a.tmod c| < c := by
    intro a c hc
    rcases le_or_lt 0 a with ha | ha
    · have h1 := Int.tmod_nonneg c ha
      have h2 := Int.tmod_lt_of_pos a hc
      rw [abs_lt]; constructor <;> omega
    · have h1 := Int.tmod_nonneg c (show 0 ≤ -a by omega)
      have h2 := Int.tmod_lt_of_pos (-a) hc
      have e : (-a).tmod c = -(a.tmod c) := by
        rw [Int.tmod_def, Int.tmod_def, Int.neg_tdiv]; ring
      rw [e] at h1 h2
      rw [abs_lt]; constructor <;> omega
  rcases lt_or_gt_of_ne hb with h | h
  · have := key a (-b) (by omega)
    rw [Int.tmod_neg] at this
    rw [abs_of_neg h]; exact this
  · rw [abs_of_pos h]; exact key a b h

theorem abs_tdiv_mul_sub_lt (n b : Int) (hb : b ≠ 0) : |n.tdiv b * b - n| < |b| := by
  have h := Int.tmod_add_tdiv n b
  have h2 := abs_tmod_lt n b hb
  have : n.tdiv b * b - n = -(n.tmod b) := by linarith
  rw [this, abs_neg]; exact h2

theorem tdiv_rat_bound (n b : Int) (hb : b ≠ 0) :
    |((n.tdiv b : Int) : ℚ) - (n : ℚ) / b| < 1 := by
  have h := abs_tdiv_mul_sub_lt n b hb
  have hbq : (b : ℚ) ≠ 0 := by exact_mod_cast hb
  have habs : (0 : ℚ) < |(b : ℚ)| := abs_pos.mpr hbq
  have h' : |((n.tdiv b : Int) : ℚ) * b - n| < |(b : ℚ)| := by exact_mod_cast h
  have e : ((n.tdiv b : Int) : ℚ) - (n : ℚ) / b = (((n.tdiv b : Int) : ℚ) * b - n) / b := by
    field_simp
  rw [e, abs_div, div_lt_one habs]
  exact h'

/-- The quotient `Dec.Quo` computes is within one unit of the last place of the
exact rational quotient. -/
theorem quoRaw_rat_bound (d d2 : Int) (h : d2 ≠ 0) :
    |Dec.toRat (Dec.quoRaw d d2) - Dec.toRat d / Dec.toRat d2| < 1 / 10 ^ 18 := by
  have hq : (d2 : ℚ) ≠ 0 := by exact_mod_cast h
  have h1 := tdiv_rat_bound (d * precisionReuse * precisionReuse) d2 h
  have h2 : |((Dec.quoRaw d d2 : Int) : ℚ) * 10 ^ 18 -
      (((d * precisionReuse * precisionReuse).tdiv d2 : Int) : ℚ)| ≤ 5 * 10 ^ 17 := by
    exact_mod_cast chop_bound ((d * precisionReuse * precisionReuse).tdiv d2)
  have hcast : ((d * precisionReuse * precisionReuse : Int) : ℚ) = (d : ℚ) * 10 ^ 36 := by
    simp only [precisionReuse]; push_cast; ring
  rw [hcast] at h1
  simp only [Dec.toRat]
  generalize ((Dec.quoRaw d d2 : Int) : ℚ) = c at h2 ⊢
  generalize (((d * precisionReuse * precisionReuse).tdiv d2 : Int) : ℚ) = t at h1 h2
  have e : c / 10 ^ 18 - (d : ℚ) / 10 ^ 18 / ((d2 : ℚ) / 10 ^ 18) =
      ((c * 10 ^ 18 - t) + (t - (d : ℚ) * 10 ^ 36 / d2)) / 10 ^ 36 := by
    field_simp
    ring
  have hX : |(c * 10 ^ 18 - t) + (t - (d : ℚ) * 10 ^ 36 / d2)| < 5 * 10 ^ 17 + 1 :=
    lt_of_le_of_lt (abs_add _ _) (add_lt_add_of_le_of_lt h2 h1)
  rw [e, abs_div, abs_of_pos (show (0 : ℚ) < 10 ^ 36 by positivity),
    div_lt_div_iff₀ (by positivity) (by positivity)]
  calc |(c * 10 ^ 18 - t) + (t - (d : ℚ) * 10 ^ 36 / d2)| * 10 ^ 18
      < (5 * 10 ^ 17 + 1) * 10 ^ 18 := mul_lt_mul_of_pos_right hX (by positivity)
    _ ≤ 1 * 10 ^ 36 := by norm_num

/-- When the exact rational quotient is itself an 18-digit decimal, `Dec.Quo`
computes it. -/
theorem quoRaw_exact (d d2 k : Int) (h : d2 ≠ 0)
    (hk : Dec.toRat d / Dec.toRat d2 = Dec.toRat k) : Dec.quoRaw d d2 = k := by
  have hq : (d2 : ℚ) ≠ 0 := by exact_mod_cast h
  have e : d * 10 ^ 18 = k * d2 := by
    have : (d : ℚ) * 10 ^ 18 = k * d2 := by
      simp only [Dec.toRat] at hk
      field_simp at hk
      linarith
    exact_mod_cast this
  have e2 : d * precisionReuse * precisionReuse = (k * 10 ^ 18) * d2 := by
    simp only [precisionReuse]; rw [e]; ring
  unfold Dec.quoRaw
  rw [e2, Int.mul_tdiv_cancel _ h, chop_mul]

theorem decFromCombined_range {neg : Bool} {c : List Char} {n : Nat} {d : Int}
    (h : decFromCombined neg c n = some d) : |d| < 2 ^ maxDecBitLen := by
  unfold decFromCombined at h
  by_cases h1 : n > Precision
  · rw [if_pos h1] at h; exact Option.noConfusion h
  · rw [if_neg h1] at h
    cases hs : SetString (c ++ List.replicate (Precision - n) '0') 10 with
    | none => rw [hs] at h; exact Option.noConfusion h
    | some combined =>
      rw [hs] at h
      dsimp only at h
      cases hb : bitLenExceeds combined maxDecBitLen with
      | true => rw [hb, if_pos rfl] at h; exact Option.noConfusion h
      | false =>
        rw [hb] at h
        have hr := abs_lt_of_bitLenExceeds_eq_false hb
        cases neg with
        | true =>
          have e : -combined = d := by simpa using h
          rw [← e, abs_neg]; exact hr
        | false =>
          have e : combined = d := by simpa using h
          rw [← e]; exact hr

/-- A decimal read by `sdk.NewDecFromStr` is within the bit-length bound. -/
theorem NewDecFromStr_range {s : List Char} {d : Int} (h : NewDecFromStr s = some d) :
    |d| < 2 ^ maxDecBitLen := by
  unfold NewDecFromStr at h
  split_ifs at h
  dsimp only at h
  split_ifs at h
  split at h
  · exact decFromCombined_range h
  · split_ifs at h
    exact decFromCombined_range h
  · exact Option.noConfusion h

/-! ## Decimal odds: payout -/

/-- Unfolding of `decimalOdds.CalculatePayout` on an accepted odds value. -/
theorem decimal_payout_eq {oddsVal : String} {d : Int} (amount : Int)
    (hparse : NewDecFromStr oddsVal.data = some d) (hd : OneDec < d) :
    decimalOdds.CalculatePayout oddsVal amount = Outcome.ofDec (checkDec (d * amount)) := by
  have hpos : 0 < d := lt_trans (by decide) hd
  unfold decimalOdds.CalculatePayout
  rw [hparse]
  simp only [Dec.MulInt]
  rw [if_neg (not_not.mpr hpos), if_neg (not_le.mpr hd)]

/-- C1, amended: for an odds string that reads as a decimal `d > 1` and any
integer stake whose product with `d` stays within the bit-length bound of
`sdk.Dec`, `decimalOdds.CalculatePayout` returns exactly `d * stake`, with no
rounding; beyond the bound the multiplication panics. -/
theorem decimal_payout_exact (oddsVal : String) (d amount : Int)
    (hparse : NewDecFromStr oddsVal.data = some d) (hd : OneDec < d) :
    (|d * amount| < 2 ^ maxDecBitLen →
      decimalOdds.CalculatePayout oddsVal amount = Outcome.ok (d * amount) ∧
      Dec.toRat (d * amount) = Dec.toRat d * amount) ∧
    (¬ |d * amount| < 2 ^ maxDecBitLen →
      decimalOdds.CalculatePayout oddsVal amount = Outcome.overflow) := by
  rw [decimal_payout_eq amount hparse hd]
  refine ⟨fun h => ⟨?_, ?_⟩, fun h => ?_⟩
  · rw [checkDec_eq_some h]; rfl
  · simp only [Dec.toRat]; push_cast; ring
  · rw [checkDec_eq_none h]; rfl

/-- C1, witness: odds "2.0" and stake 100 give payout 200 (profit 100). -/
theorem decimal_payout_exact_witness :
    NewDecFromStr "2.0".data = some 2000000000000000000 ∧
    decimalOdds.CalculatePayout "2.0" 100 = Outcome.ok 200000000000000000000 ∧
    Dec.toRat 200000000000000000000 = Dec.toRat 2000000000000000000 * 100 :=
  ⟨by decide,
   (decimal_payout_exact "2.0" 2000000000000000000 100 (by decide) (by decide)).1
     (by norm_num [maxDecBitLen, MaxBitLen])⟩

/-- C1 as stated fails: odds "1000.0" are accepted and the stake `2^254` is a
valid `sdkmath.Int`, yet the multiplication overflows and the call panics. -/
theorem decimal_payout_overflow_counterexample :
    NewDecFromStr "1000.0".data = some 1000000000000000000000 ∧
    OneDec < 1000000000000000000000 ∧
    bitLenExceeds (2 ^ 254) MaxBitLen = false ∧
    decimalOdds.CalculatePayout "1000.0" (2 ^ 254) = Outcome.overflow := by
  have hparse : NewDecFromStr "1000.0".data = some 1000000000000000000000 := by decide
  refine ⟨hparse, by decide, ?_, ?_⟩
  · norm_num [bitLenExceeds, MaxBitLen, Nat.shiftRight_eq_div_pow]
  · rw [decimal_payout_eq (2 ^ 254) hparse (by decide),
      checkDec_eq_none (by norm_num [maxDecBitLen, MaxBitLen])]
    rfl

/-! ## Fractional odds: payout -/

theorem NewDecFromInt_ne_zero {q : Int} (hq : q ≠ 0) : NewDecFromInt q ≠ 0 := by
  unfold NewDecFromInt precisionReuse
  exact mul_ne_zero hq (by norm_num)

/-- Multiplying a decimal by a whole decimal loses nothing in the chop. -/
theorem Dec_Mul_NewDecFromInt (d b : Int) :
    Dec.Mul d (NewDecFromInt b) = checkDec (d * b) := by
  unfold Dec.Mul NewDecFromInt precisionReuse
  rw [show d * (b * 10 ^ 18) = (d * b) * 10 ^ 18 by ring, chop_mul]

/-- The shared checks of the fractional operations succeed on "p/q" with both
parts positive integers. -/
theorem fractional_parts_ok {oddsVal : String} {first second : List Char} {p q : Int}
    (hsplit : Split '/' oddsVal.data = [first, second])
    (hp : NewIntFromString first = some p) (hq : NewIntFromString second = some q)
    (hppos : 0 < p) (hqpos : 0 < q) :
    fractionalOdds.parts oddsVal = Except.ok (p, q) := by
  unfold fractionalOdds.parts
  rw [hsplit]
  simp only [hp, hq]
  rw [if_neg (by simp [hppos, hqpos])]

/-- Unfolding of `fractionalOdds.CalculatePayout` once the checks have passed. -/
theorem fractional_payout_eq {oddsVal : String} {p q : Int} (amount : Int)
    (hparts : fractionalOdds.parts oddsVal = Except.ok (p, q)) (hqpos : 0 < q) :
    fractionalOdds.CalculatePayout oddsVal amount =
      Outcome.ofDec (((checkDec (NewDecFromInt (amount * p))).bind
        (fun x => checkDec (Dec.quoRaw x (NewDecFromInt q)))).bind
        (fun profit => checkDec (NewDecFromInt amount + profit))) := by
  unfold fractionalOdds.CalculatePayout
  rw [hparts]
  simp only [Dec_Mul_NewDecFromInt, Dec.Quo, Dec.Add, if_neg (NewDecFromInt_ne_zero (ne_of_gt hqpos))]
  rw [show NewDecFromInt amount * p = NewDecFromInt (amount * p) by
    unfold NewDecFromInt; ring]

theorem toRat_NewDecFromInt (a : Int) : Dec.toRat (NewDecFromInt a) = a := by
  simp only [Dec.toRat, NewDecFromInt, precisionReuse]
  push_cast
  exact mul_div_cancel_right₀ _ (by norm_num)

theorem toRat_add (a b : Int) : Dec.toRat (a + b) = Dec.toRat a + Dec.toRat b := by
  unfold Dec.toRat
  push_cast
  ring

/-- C2, amended: on "p/q" with `p`, `q` positive integers the profit is the
18-digit decimal `Dec.Quo` computes for `stake * p / q` (within `10^-18` of it,
and equal to it when it has at most 18 fractional digits, in which case the
payout is exactly `stake * (p + q) / q`); the call returns `stake + profit`
whenever the product, the profit and the sum stay within the bit-length bound
of `sdk.Dec`, and panics otherwise. -/
theorem fractional_payout_value (oddsVal : String) (first second : List Char)
    (p q amount profit : Int)
    (hsplit : Split '/' oddsVal.data = [first, second])
    (hp : NewIntFromString first = some p) (hq : NewIntFromString second = some q)
    (hppos : 0 < p) (hqpos : 0 < q)
    (hprofit : profit = Dec.quoRaw (NewDecFromInt (amount * p)) (NewDecFromInt q)) :
    |Dec.toRat profit - (amount : ℚ) * p / q| < 1 / 10 ^ 18 ∧
    (∀ k : Int, (amount : ℚ) * p / q = Dec.toRat k →
      profit = k ∧
      Dec.toRat (NewDecFromInt amount + profit) = (amount : ℚ) * (p + q) / q) ∧
    ((|NewDecFromInt (amount * p)| < 2 ^ maxDecBitLen ∧ |profit| < 2 ^ maxDecBitLen ∧
        |NewDecFromInt amount + profit| < 2 ^ maxDecBitLen) →
      fractionalOdds.CalculatePayout oddsVal amount =
        Outcome.ok (NewDecFromInt amount + profit)) ∧
    (¬ (|NewDecFromInt (amount * p)| < 2 ^ maxDecBitLen ∧ |profit| < 2 ^ maxDecBitLen ∧
        |NewDecFromInt amount + profit| < 2 ^ maxDecBitLen) →
      fractionalOdds.CalculatePayout oddsVal amount = Outcome.overflow) := by
  have hq0 : NewDecFromInt q ≠ 0 := NewDecFromInt_ne_zero (ne_of_gt hqpos)
  have hqq : (q : ℚ) ≠ 0 := by exact_mod_cast (ne_of_gt hqpos)
  have hquot : Dec.toRat (NewDecFromInt (amount * p)) / Dec.toRat (NewDecFromInt q) =
      (amount : ℚ) * p / q := by
    rw [toRat_NewDecFromInt, toRat_NewDecFromInt]; push_cast; rfl
  have hexact : ∀ k : Int, (amount : ℚ) * p / q = Dec.toRat k → profit = k := by
    intro k hk
    rw [hprofit]
    exact quoRaw_exact _ _ k hq0 (hquot.trans hk)
  rw [fractional_payout_eq amount (fractional_parts_ok hsplit hp hq hppos hqpos) hqpos]
  refine ⟨?_, ?_, ?_, ?_⟩
  · have := quoRaw_rat_bound (NewDecFromInt (amount * p)) (NewDecFromInt q) hq0
    rw [hquot, ← hprofit] at this
    exact this
  · intro k hk
    refine ⟨hexact k hk, ?_⟩
    rw [toRat_add, toRat_NewDecFromInt, hexact k hk, ← hk]
    field_simp
    ring
  · rintro ⟨h1, h2, h3⟩
    rw [checkDec_eq_some h1]
    simp only [Option.bind, ← hprofit]
    rw [checkDec_eq_some h2]
    simp only [Option.bind]
    rw [checkDec_eq_some h3]
    rfl
  · intro h
    by_cases h1 : |NewDecFromInt (amount * p)| < 2 ^ maxDecBitLen
    · rw [checkDec_eq_some h1]
      simp only [Option.bind, ← hprofit]
      by_cases h2 : |profit| < 2 ^ maxDecBitLen
      · rw [checkDec_eq_some h2]
        simp only [Option.bind]
        rw [checkDec_eq_none (fun h3 => h ⟨h1, h2, h3⟩)]
        rfl
      · rw [checkDec_eq_none h2]
        rfl
    · rw [checkDec_eq_none h1]
      rfl

/-- C2, witness: "5/2" with stake 10 gives profit 25 and payout 35. -/
theorem fractional_payout_value_witness :
    Split '/' "5/2".data = [['5'], ['2']] ∧
    NewIntFromString ['5'] = some 5 ∧ NewIntFromString ['2'] = some 2 ∧
    (25000000000000000000 : Int) = Dec.quoRaw (NewDecFromInt (10 * 5)) (NewDecFromInt 2) ∧
    Dec.toRat 25000000000000000000 = 25 ∧
    fractionalOdds.CalculatePayout "5/2" 10 = Outcome.ok (NewDecFromInt 10 + 25000000000000000000) ∧
    Dec.toRat (NewDecFromInt 10 + 25000000000000000000) = ((10 : Int) : ℚ) * ((5 : Int) + (2 : Int)) / (2 : Int) := by
  have h := fractional_payout_value "5/2" ['5'] ['2'] 5 2 10 25000000000000000000
    (by decide) (by decide) (by decide) (by decide) (by decide) (by decide)
  refine ⟨by decide, by decide, by decide, by decide, by norm_num [Dec.toRat], ?_, ?_⟩
  · exact h.2.2.1 (by norm_num [NewDecFromInt, precisionReuse, maxDecBitLen, MaxBitLen])
  · exact (h.2.1 25000000000000000000 (by norm_num [Dec.toRat])).2

/-- C2 as stated fails: "1000/1" is accepted and the stake `2^254` is a valid
`sdkmath.Int`, yet `stake * 1000` overflows the decimal and the call panics. -/
theorem fractional_payout_overflow_counterexample :
    Split '/' "1000/1".data = [['1', '0', '0', '0'], ['1']] ∧
    NewIntFromString ['1', '0', '0', '0'] = some 1000 ∧ NewIntFromString ['1'] = some 1 ∧
    bitLenExceeds (2 ^ 254) MaxBitLen = false ∧
    fractionalOdds.CalculatePayout "1000/1" (2 ^ 254) = Outcome.overflow := by
  have hparts : fractionalOdds.parts "1000/1" = Except.ok (1000, 1) :=
    @fractional_parts_ok "1000/1" ['1', '0', '0', '0'] ['1'] 1000 1 (by decide) (by decide)
      (by decide) (by decide) (by decide)
  refine ⟨by decide, by decide, by decide, ?_, ?_⟩
  · norm_num [bitLenExceeds, MaxBitLen, Nat.shiftRight_eq_div_pow]
  · rw [fractional_payout_eq (2 ^ 254) hparts (by decide),
      checkDec_eq_none (by norm_num [NewDecFromInt, precisionReuse, maxDecBitLen, MaxBitLen])]
    rfl

/-! ## Moneyline odds: payout -/

theorem Dec_Abs_eq (d : Int) : Dec.Abs d = |d| := by
  unfold Dec.Abs
  exact Int.natCast_natAbs d

/-- The shared checks of the moneyline operations succeed on a non-zero integer. -/
theorem moneyline_value_ok {oddsVal : String} {m : Int}
    (hparse : NewIntFromString oddsVal.data = some m) (hm : m ≠ 0) :
    moneylineOdds.value oddsVal = Except.ok m := by
  unfold moneylineOdds.value
  rw [hparse]
  simp only [if_neg hm]

/-- Dividing a whole multiple of `m` hundredths by 100 is exact. -/
theorem quoRaw_hundred (x : Int) :
    Dec.quoRaw (NewDecFromInt x) (NewDec 100) = x * 10 ^ 16 := by
  apply quoRaw_exact
  · unfold NewDec precisionReuse; norm_num
  · simp only [Dec.toRat, NewDecFromInt, NewDec, precisionReuse]
    push_cast
    field_simp
    ring

/-- Unfolding of `moneylineOdds.CalculatePayout` on positive odds. -/
theorem moneyline_payout_pos_eq {oddsVal : String} {m : Int} (amount : Int)
    (hvalue : moneylineOdds.value oddsVal = Except.ok m) (hm : 0 < m) :
    moneylineOdds.CalculatePayout oddsVal amount =
      Outcome.ofDec ((checkDec (NewDecFromInt (amount * m))).bind
        (fun _ => checkDec (NewDecFromInt amount + |amount * m * 10 ^ 16|))) := by
  have hsmall : ∀ x : Int, |NewDecFromInt x| < 2 ^ maxDecBitLen →
      |x * 10 ^ 16| < 2 ^ maxDecBitLen := by
    intro x hx
    refine lt_of_le_of_lt ?_ hx
    unfold NewDecFromInt precisionReuse
    rw [abs_mul, abs_mul]
    exact mul_le_mul_of_nonneg_left (by norm_num) (abs_nonneg x)
  unfold moneylineOdds.CalculatePayout
  rw [hvalue]
  simp only [if_pos hm, Dec_Mul_NewDecFromInt, Dec.Quo, Dec.Add,
    if_neg (show NewDec 100 ≠ 0 by unfold NewDec precisionReuse; norm_num)]
  rw [show NewDecFromInt amount * m = NewDecFromInt (amount * m) by
    unfold NewDecFromInt; ring]
  by_cases h : |NewDecFromInt (amount * m)| < 2 ^ maxDecBitLen
  · rw [checkDec_eq_some h]
    simp only [Option.bind, quoRaw_hundred]
    rw [checkDec_eq_some (hsmall _ h)]
    simp only [Option.map, Dec_Abs_eq]
  · rw [checkDec_eq_none h]
    simp only [Option.bind, Option.map]

/-- Unfolding of `moneylineOdds.CalculatePayout` on negative odds. -/
theorem moneyline_payout_neg_eq {oddsVal : String} {m : Int} (amount : Int)
    (hvalue : moneylineOdds.value oddsVal = Except.ok m) (hm : m < 0) :
    moneylineOdds.CalculatePayout oddsVal amount =
      Outcome.ofDec ((checkDec (NewDecFromInt (amount * 100))).bind
        (fun x => checkDec (NewDecFromInt amount + |x.tdiv m|))) := by
  unfold moneylineOdds.CalculatePayout
  rw [hvalue]
  simp only [if_neg (not_lt.mpr (le_of_lt hm)), Dec.QuoInt, if_neg (ne_of_lt hm), Dec.Add]
  rw [show NewDec 100 = NewDecFromInt 100 from rfl, Dec_Mul_NewDecFromInt,
    show NewDecFromInt amount * 100 = NewDecFromInt (amount * 100) by
      unfold NewDecFromInt; ring]
  cases checkDec (NewDecFromInt (amount * 100)) with
  | none => simp only [Option.bind, Option.map]
  | some x => simp only [Option.bind, Option.map, Dec_Abs_eq]

/-- Truncated division of a non-negative decimal by a negative integer, made
positive, is the floor of the quotient of the magnitudes. -/
theorem abs_tdiv_neg_divisor {x m : Int} (hx : 0 ≤ x) (hm : m < 0) :
    |x.tdiv m| = x / (-m) := by
  have h1 : x.tdiv m = -(x / (-m)) := by
    rw [show m = -(-m) by ring, Int.tdiv_neg, Int.tdiv_eq_ediv hx (by omega)]
    simp
  rw [h1, abs_neg, abs_of_nonneg (Int.ediv_nonneg hx (by omega))]

/-- Floor division seen in the rationals. -/
theorem ediv_rat_bounds (x n : Int) (hn : 0 < n) :
    ((x / n : Int) : ℚ) ≤ (x : ℚ) / n ∧ (x : ℚ) / n < ((x / n : Int) : ℚ) + 1 := by
  have hnq : (0 : ℚ) < n := by exact_mod_cast hn
  have h1 : ((x / n : Int) : ℚ) * n ≤ x := by exact_mod_cast Int.ediv_mul_le x (ne_of_gt hn)
  have h2 : (x : ℚ) < (((x / n : Int) : ℚ) + 1) * n := by
    exact_mod_cast Int.lt_ediv_add_one_mul_self x hn
  exact ⟨(le_div_iff₀ hnq).mpr h1, (div_lt_iff₀ hnq).mpr h2⟩

/-- C3, amended: for an odds string that reads as a non-zero integer `m` and a
non-negative integer stake, the profit is `stake * m / 100` exactly when
`m > 0`, and `stake * 100 / |m|` truncated to 18 fractional digits when
`m < 0`; `moneylineOdds.CalculatePayout` returns `stake + profit` whenever the
product and the sum stay within the bit-length bound of `sdk.Dec`, and panics
otherwise. -/
theorem moneyline_payout_value (oddsVal : String) (m amount profit : Int)
    (hparse : NewIntFromString oddsVal.data = some m) (hm : m ≠ 0) (hamount : 0 ≤ amount)
    (hprofit : profit = if 0 < m then amount * m * 10 ^ 16 else (amount * 10 ^ 20) / (-m)) :
    (0 < m → Dec.toRat profit = (amount : ℚ) * m / 100) ∧
    (m < 0 → Dec.toRat profit ≤ (amount : ℚ) * 100 / |(m : ℚ)| ∧
      (amount : ℚ) * 100 / |(m : ℚ)| < Dec.toRat profit + 1 / 10 ^ 18) ∧
    ((|NewDecFromInt (amount * (if 0 < m then m else 100))| < 2 ^ maxDecBitLen ∧
        |NewDecFromInt amount + profit| < 2 ^ maxDecBitLen) →
      moneylineOdds.CalculatePayout oddsVal amount =
        Outcome.ok (NewDecFromInt amount + profit)) ∧
    (¬ (|NewDecFromInt (amount * (if 0 < m then m else 100))| < 2 ^ maxDecBitLen ∧
        |NewDecFromInt amount + profit| < 2 ^ maxDecBitLen) →
      moneylineOdds.CalculatePayout oddsVal amount = Outcome.overflow) := by
  have hvalue := moneyline_value_ok hparse hm
  rcases lt_or_gt_of_ne hm with hneg | hpos
  · -- negative odds
    have hnp : ¬ 0 < m := not_lt.mpr (le_of_lt hneg)
    rw [if_neg hnp] at hprofit
    simp only [if_neg hnp]
    have hx : NewDecFromInt (amount * 100) = amount * 10 ^ 20 := by
      unfold NewDecFromInt precisionReuse; ring
    have hx0 : 0 ≤ NewDecFromInt (amount * 100) := by
      rw [hx]; positivity
    have habs : |(NewDecFromInt (amount * 100)).tdiv m| = profit := by
      rw [abs_tdiv_neg_divisor hx0 hneg, hx, hprofit]
    rw [moneyline_payout_neg_eq amount hvalue hneg]
    refine ⟨fun h => absurd h hnp, fun _ => ?_, ?_, ?_⟩
    · have hb := ediv_rat_bounds (amount * 10 ^ 20) (-m) (by omega)
      have hmq : |(m : ℚ)| = ((-m : Int) : ℚ) := by
        rw [abs_of_neg (by exact_mod_cast hneg)]; push_cast; rfl
      rw [hmq, hprofit]
      simp only [Dec.toRat]
      have hmpos : (0 : ℚ) < ((-m : Int) : ℚ) := by exact_mod_cast (show (0 : Int) < -m by omega)
      have e : (amount : ℚ) * 100 / ((-m : Int) : ℚ) =
          ((amount * 10 ^ 20 : Int) : ℚ) / ((-m : Int) : ℚ) / 10 ^ 18 := by
        push_cast; field_simp; ring
      rw [e]
      constructor
      · exact div_le_div_of_nonneg_right hb.1 (by positivity)
      · rw [← add_div]
        exact div_lt_div_of_pos_right hb.2 (by positivity)
    · rintro ⟨h1, h2⟩
      rw [checkDec_eq_some h1]
      simp only [Option.bind, habs]
      rw [checkDec_eq_some h2]
      rfl
    · intro h
      by_cases h1 : |NewDecFromInt (amount * 100)| < 2 ^ maxDecBitLen
      · rw [checkDec_eq_some h1]
        simp only [Option.bind, habs]
        rw [checkDec_eq_none (fun h2 => h ⟨h1, h2⟩)]
        rfl
      · rw [checkDec_eq_none h1]
        rfl
  · -- positive odds
    have hpos0 : 0 < m := hpos
    rw [if_pos hpos0] at hprofit
    simp only [if_pos hpos0]
    have habs : |amount * m * 10 ^ 16| = profit := by
      rw [hprofit]; exact abs_of_nonneg (by positivity)
    rw [moneyline_payout_pos_eq amount hvalue hpos0]
    refine ⟨fun _ => ?_, fun h => absurd h (not_lt.mpr (le_of_lt hpos0)), ?_, ?_⟩
    · rw [hprofit]
      simp only [Dec.toRat]
      push_cast
      field_simp
      ring
    · rintro ⟨h1, h2⟩
      rw [checkDec_eq_some h1]
      simp only [Option.bind, habs]
      rw [checkDec_eq_some h2]
      rfl
    · intro h
      by_cases h1 : |NewDecFromInt (amount * m)| < 2 ^ maxDecBitLen
      · rw [checkDec_eq_some h1]
        simp only [Option.bind, habs]
        rw [checkDec_eq_none (fun h2 => h ⟨h1, h2⟩)]
        rfl
      · rw [checkDec_eq_none h1]
        rfl

/-- C3, witness: "-200" with stake 200 gives profit 100 and payout 300. -/
theorem moneyline_payout_value_witness :
    NewIntFromString "-200".data = some (-200) ∧
    Dec.toRat 100000000000000000000 = 100 ∧
    moneylineOdds.CalculatePayout "-200" 200 =
      Outcome.ok (NewDecFromInt 200 + 100000000000000000000) ∧
    Dec.toRat (NewDecFromInt 200 + 100000000000000000000) = 300 := by
  have h := moneyline_payout_value "-200" (-200) 200 100000000000000000000
    (by decide) (by decide) (by decide) (by norm_num)
  refine ⟨by decide, by norm_num [Dec.toRat], ?_, by norm_num [Dec.toRat, NewDecFromInt, precisionReuse]⟩
  exact h.2.2.1 (by norm_num [NewDecFromInt, precisionReuse, maxDecBitLen, MaxBitLen])

/-- C3 as stated fails: "400" is accepted and the stake `2^254` is a valid
non-negative `sdkmath.Int`, yet `stake * 400` overflows the decimal and the call
panics. -/
theorem moneyline_payout_overflow_counterexample :
    NewIntFromString "400".data = some 400 ∧
    bitLenExceeds (2 ^ 254) MaxBitLen = false ∧
    moneylineOdds.CalculatePayout "400" (2 ^ 254) = Outcome.overflow := by
  have hparse : NewIntFromString "400".data = some 400 := by decide
  refine ⟨hparse, ?_, ?_⟩
  · norm_num [bitLenExceeds, MaxBitLen, Nat.shiftRight_eq_div_pow]
  · rw [moneyline_payout_pos_eq (2 ^ 254) (moneyline_value_ok hparse (by decide)) (by decide),
      checkDec_eq_none (by norm_num [NewDecFromInt, precisionReuse, maxDecBitLen, MaxBitLen])]
    rfl

/-! ## Decimal odds: bet amount and error cases -/

/-- Unfolding of `decimalOdds.CalculateBetAmount` on an accepted odds value: the
subtraction `d - 1` never overflows and is never zero. -/
theorem decimal_betAmount_eq {oddsVal : String} {d : Int} (payoutProfit : Int)
    (hparse : NewDecFromStr oddsVal.data = some d) (hd : OneDec < d) :
    decimalOdds.CalculateBetAmount oddsVal payoutProfit =
      Outcome.ofDec (checkDec (Dec.quoRaw payoutProfit (d - OneDec))) := by
  have hone : (0 : Int) < OneDec := by decide
  have hpos : 0 < d := lt_trans hone hd
  have hrange := NewDecFromStr_range hparse
  have hsub : |d - OneDec| < 2 ^ maxDecBitLen := by
    rw [abs_of_pos hpos] at hrange
    rw [abs_of_pos (by omega)]
    omega
  unfold decimalOdds.CalculateBetAmount
  rw [hparse]
  simp only [Dec.Sub]
  rw [if_neg (not_not.mpr hpos), if_neg (not_le.mpr hd), checkDec_eq_some hsub]
  simp only [Option.bind, Dec.Quo]
  rw [if_neg (by omega)]

/-- C4, amended: both decimal operations return the incorrect-format error when
the string does not read as a decimal, the should-be-positive error when it
reads as `d ≤ 0`, and the cannot-be-less-than-one error when `0 < d ≤ 1`
(`d = 1` included); on `d > 1` neither returns an error: each returns its
result when that stays within the bit-length bound of `sdk.Dec` and panics
otherwise. -/
theorem decimal_error_cases (oddsVal : String) (amount payoutProfit : Int) :
    (NewDecFromStr oddsVal.data = none →
      decimalOdds.CalculatePayout oddsVal amount =
        Outcome.error OddsError.ErrDecimalOddsIncorrectFormat ∧
      decimalOdds.CalculateBetAmount oddsVal payoutProfit =
        Outcome.error OddsError.ErrDecimalOddsIncorrectFormat) ∧
    (∀ d : Int, NewDecFromStr oddsVal.data = some d → d ≤ 0 →
      decimalOdds.CalculatePayout oddsVal amount =
        Outcome.error OddsError.ErrDecimalOddsShouldBePositive ∧
      decimalOdds.CalculateBetAmount oddsVal payoutProfit =
        Outcome.error OddsError.ErrDecimalOddsShouldBePositive) ∧
    (∀ d : Int, NewDecFromStr oddsVal.data = some d → 0 < d → d ≤ OneDec →
      decimalOdds.CalculatePayout oddsVal amount =
        Outcome.error OddsError.ErrDecimalOddsCanNotBeLessThanOne ∧
      decimalOdds.CalculateBetAmount oddsVal payoutProfit =
        Outcome.error OddsError.ErrDecimalOddsCanNotBeLessThanOne) ∧
    (∀ d : Int, NewDecFromStr oddsVal.data = some d → OneDec < d →
      decimalOdds.CalculatePayout oddsVal amount =
        (if |d * amount| < 2 ^ maxDecBitLen then Outcome.ok (d * amount)
          else Outcome.overflow) ∧
      decimalOdds.CalculateBetAmount oddsVal payoutProfit =
        (if |Dec.quoRaw payoutProfit (d - OneDec)| < 2 ^ maxDecBitLen
          then Outcome.ok (Dec.quoRaw payoutProfit (d - OneDec))
          else Outcome.overflow)) := by
  refine ⟨fun h => ?_, fun d h hd => ?_, fun d h h0 h1 => ?_, fun d h hd => ?_⟩
  · unfold decimalOdds.CalculatePayout decimalOdds.CalculateBetAmount
    rw [h]
    exact ⟨rfl, rfl⟩
  · unfold decimalOdds.CalculatePayout decimalOdds.CalculateBetAmount
    rw [h]
    simp only [if_pos (not_lt.mpr hd)]
    exact ⟨trivial, trivial⟩
  · unfold decimalOdds.CalculatePayout decimalOdds.CalculateBetAmount
    rw [h]
    simp only [if_neg (not_not.mpr h0), if_pos h1]
    exact ⟨trivial, trivial⟩
  · rw [decimal_payout_eq amount h hd, decimal_betAmount_eq payoutProfit h hd]
    constructor
    · by_cases hr : |d * amount| < 2 ^ maxDecBitLen
      · rw [if_pos hr, checkDec_eq_some hr]; rfl
      · rw [if_neg hr, checkDec_eq_none hr]; rfl
    · by_cases hr : |Dec.quoRaw payoutProfit (d - OneDec)| < 2 ^ maxDecBitLen
      · rw [if_pos hr, checkDec_eq_some hr]; rfl
      · rw [if_neg hr, checkDec_eq_none hr]; rfl

/-- C4 as stated fails in its last sentence: "1.000000000000000001" reads as a
decimal above one and `2^300` is a decimal within range, yet the quotient
`2^300 / 10^-18` overflows and `CalculateBetAmount` panics. -/
theorem decimal_betAmount_overflow_counterexample :
    NewDecFromStr "1.000000000000000001".data = some 1000000000000000001 ∧
    OneDec < 1000000000000000001 ∧
    checkDec (2 ^ 300) = some (2 ^ 300) ∧
    decimalOdds.CalculateBetAmount "1.000000000000000001" (2 ^ 300) = Outcome.overflow := by
  have hparse : NewDecFromStr "1.000000000000000001".data = some 1000000000000000001 := by
    decide
  have hq : Dec.quoRaw (2 ^ 300) (1000000000000000001 - OneDec) = 2 ^ 300 * 10 ^ 18 := by
    apply quoRaw_exact
    · decide
    · norm_num [Dec.toRat, OneDec, precisionReuse]
  refine ⟨hparse, by decide, checkDec_eq_some (by norm_num [maxDecBitLen, MaxBitLen]), ?_⟩
  rw [decimal_betAmount_eq (2 ^ 300) hparse (by decide), hq,
    checkDec_eq_none (by norm_num [maxDecBitLen, MaxBitLen])]
  rfl

/-- C4, witness: the three error kinds and an accepted value on concrete strings. -/
theorem decimal_error_cases_witness :
    decimalOdds.CalculatePayout "abc" 5 =
      Outcome.error OddsError.ErrDecimalOddsIncorrectFormat ∧
    decimalOdds.CalculateBetAmount "-2.5" 7 =
      Outcome.error OddsError.ErrDecimalOddsShouldBePositive ∧
    decimalOdds.CalculatePayout "0" 5 =
      Outcome.error OddsError.ErrDecimalOddsShouldBePositive ∧
    decimalOdds.CalculatePayout "1.0" 5 =
      Outcome.error OddsError.ErrDecimalOddsCanNotBeLessThanOne ∧
    decimalOdds.CalculateBetAmount "0.5" 7 =
      Outcome.error OddsError.ErrDecimalOddsCanNotBeLessThanOne :=
  ⟨((decimal_error_cases "abc" 5 7).1 (by decide)).1,
   ((decimal_error_cases "-2.5" 5 7).2.1 (-2500000000000000000) (by decide) (by decide)).2,
   ((decimal_error_cases "0" 5 7).2.1 0 (by decide) (by decide)).1,
   ((decimal_error_cases "1.0" 5 7).2.2.1 1000000000000000000 (by decide) (by decide)
      (by decide)).1,
   ((decimal_error_cases "0.5" 5 7).2.2.1 500000000000000000 (by decide) (by decide)
      (by decide)).2⟩

/-! ## Fractional and moneyline odds: error cases -/

theorem fractional_payout_of_error {oddsVal : String} {e : OddsError} (amount : Int)
    (h : fractionalOdds.parts oddsVal = Except.error e) :
    fractionalOdds.CalculatePayout oddsVal amount = Outcome.error e := by
  unfold fractionalOdds.CalculatePayout
  rw [h]

theorem fractional_betAmount_of_error {oddsVal : String} {e : OddsError} (payoutProfit : Int)
    (h : fractionalOdds.parts oddsVal = Except.error e) :
    fractionalOdds.CalculateBetAmount oddsVal payoutProfit = Outcome.error e := by
  unfold fractionalOdds.CalculateBetAmount
  rw [h]

/-- Unfolding of `fractionalOdds.CalculateBetAmount` once the checks have passed. -/
theorem fractional_betAmount_eq {oddsVal : String} {p q : Int} (payoutProfit : Int)
    (hparts : fractionalOdds.parts oddsVal = Except.ok (p, q)) (hppos : 0 < p) :
    fractionalOdds.CalculateBetAmount oddsVal payoutProfit =
      Outcome.ofDec ((checkDec (payoutProfit * q)).bind
        (fun x => checkDec (Dec.quoRaw x (NewDecFromInt p)))) := by
  unfold fractionalOdds.CalculateBetAmount
  rw [hparts]
  simp only [Dec_Mul_NewDecFromInt, Dec.Quo, if_neg (NewDecFromInt_ne_zero (ne_of_gt hppos))]

theorem fractional_parts_bad_length {oddsVal : String}
    (h : (Split '/' oddsVal.data).length ≠ 2) :
    fractionalOdds.parts oddsVal = Except.error OddsError.ErrFractionalOddsIncorrectFormat := by
  unfold fractionalOdds.parts
  split
  · rename_i heq
    rw [heq] at h
    exact absurd rfl h
  · rfl

theorem fractional_parts_bad_integer {oddsVal : String} {first second : List Char}
    (hsplit : Split '/' oddsVal.data = [first, second])
    (h : NewIntFromString first = none ∨ NewIntFromString second = none) :
    fractionalOdds.parts oddsVal = Except.error OddsError.ErrFractionalOddsIncorrectFormat := by
  unfold fractionalOdds.parts
  rw [hsplit]
  cases hp : NewIntFromString first with
  | none => simp only [hp]
  | some p =>
    cases hq : NewIntFromString second with
    | none => simp only [hp, hq]
    | some q =>
      rcases h with h | h
      · rw [hp] at h; exact Option.noConfusion h
      · rw [hq] at h; exact Option.noConfusion h

theorem fractional_parts_nonpositive {oddsVal : String} {first second : List Char} {p q : Int}
    (hsplit : Split '/' oddsVal.data = [first, second])
    (hp : NewIntFromString first = some p) (hq : NewIntFromString second = some q)
    (h : p ≤ 0 ∨ q ≤ 0) :
    fractionalOdds.parts oddsVal =
      Except.error OddsError.ErrFractionalOddsCanNotBeNegativeOrZero := by
  unfold fractionalOdds.parts
  rw [hsplit]
  simp only [hp, hq]
  rw [if_pos (by rcases h with h | h <;> [left; right] <;> omega)]

/-- C5, amended: both fractional operations return the incorrect-format error
when the string does not split on "/" into exactly two parts or a part does
not read as an integer, and the cannot-be-negative-or-zero error when both
parts are integers and one is zero or negative; on two positive integers
neither returns an error: each returns its result or panics on overflow of the
decimal arithmetic. -/
theorem fractional_error_cases (oddsVal : String) (amount payoutProfit : Int) :
    ((Split '/' oddsVal.data).length ≠ 2 →
      fractionalOdds.CalculatePayout oddsVal amount =
        Outcome.error OddsError.ErrFractionalOddsIncorrectFormat ∧
      fractionalOdds.CalculateBetAmount oddsVal payoutProfit =
        Outcome.error OddsError.ErrFractionalOddsIncorrectFormat) ∧
    (∀ first second : List Char, Split '/' oddsVal.data = [first, second] →
      (NewIntFromString first = none ∨ NewIntFromString second = none) →
      fractionalOdds.CalculatePayout oddsVal amount =
        Outcome.error OddsError.ErrFractionalOddsIncorrectFormat ∧
      fractionalOdds.CalculateBetAmount oddsVal payoutProfit =
        Outcome.error OddsError.ErrFractionalOddsIncorrectFormat) ∧
    (∀ (first second : List Char) (p q : Int), Split '/' oddsVal.data = [first, second] →
      NewIntFromString first = some p → NewIntFromString second = some q →
      (p ≤ 0 ∨ q ≤ 0) →
      fractionalOdds.CalculatePayout oddsVal amount =
        Outcome.error OddsError.ErrFractionalOddsCanNotBeNegativeOrZero ∧
      fractionalOdds.CalculateBetAmount oddsVal payoutProfit =
        Outcome.error OddsError.ErrFractionalOddsCanNotBeNegativeOrZero) ∧
    (∀ (first second : List Char) (p q : Int), Split '/' oddsVal.data = [first, second] →
      NewIntFromString first = some p → NewIntFromString second = some q →
      0 < p → 0 < q →
      (∃ r : Option Int, fractionalOdds.CalculatePayout oddsVal amount = Outcome.ofDec r) ∧
      (∃ r : Option Int,
        fractionalOdds.CalculateBetAmount oddsVal payoutProfit = Outcome.ofDec r)) := by
  refine ⟨fun h => ?_, fun first second hs h => ?_, fun first second p q hs hp hq h => ?_,
    fun first second p q hs hp hq hp0 hq0 => ?_⟩
  · exact ⟨fractional_payout_of_error amount (fractional_parts_bad_length h),
      fractional_betAmount_of_error payoutProfit (fractional_parts_bad_length h)⟩
  · exact ⟨fractional_payout_of_error amount (fractional_parts_bad_integer hs h),
      fractional_betAmount_of_error payoutProfit (fractional_parts_bad_integer hs h)⟩
  · exact ⟨fractional_payout_of_error amount (fractional_parts_nonpositive hs hp hq h),
      fractional_betAmount_of_error payoutProfit (fractional_parts_nonpositive hs hp hq h)⟩
  · have hparts := fractional_parts_ok hs hp hq hp0 hq0
    exact ⟨⟨_, fractional_payout_eq amount hparts hq0⟩,
      ⟨_, fractional_betAmount_eq payoutProfit hparts hp0⟩⟩

/-- C5, witness: "1/2/3", "1.5/2" and "1/2.5" fail with the incorrect-format
error, "0/2" and 3 over -1 with the cannot-be-negative-or-zero error. -/
theorem fractional_error_cases_witness :
    fractionalOdds.CalculatePayout "1/2/3" 10 =
      Outcome.error OddsError.ErrFractionalOddsIncorrectFormat ∧
    fractionalOdds.CalculatePayout "1.5/2" 10 =
      Outcome.error OddsError.ErrFractionalOddsIncorrectFormat ∧
    fractionalOdds.CalculateBetAmount "1/2.5" 7 =
      Outcome.error OddsError.ErrFractionalOddsIncorrectFormat ∧
    fractionalOdds.CalculatePayout "0/2" 10 =
      Outcome.error OddsError.ErrFractionalOddsCanNotBeNegativeOrZero ∧
    fractionalOdds.CalculateBetAmount "3/-1" 7 =
      Outcome.error OddsError.ErrFractionalOddsCanNotBeNegativeOrZero :=
  ⟨((fractional_error_cases "1/2/3" 10 7).1 (by decide)).1,
   ((fractional_error_cases "1.5/2" 10 7).2.1 ['1', '.', '5'] ['2'] (by decide)
      (Or.inl (by decide))).1,
   ((fractional_error_cases "1/2.5" 10 7).2.1 ['1'] ['2', '.', '5'] (by decide)
      (Or.inr (by decide))).2,
   ((fractional_error_cases "0/2" 10 7).2.2.1 ['0'] ['2'] 0 2 (by decide) (by decide)
      (by decide) (Or.inl (by decide))).1,
   ((fractional_error_cases "3/-1" 10 7).2.2.1 ['3'] ['-', '1'] 3 (-1) (by decide) (by decide)
      (by decide) (Or.inr (by decide))).2⟩

/-- C5 as stated fails: "1/1000" is two positive integers and `2^310` is a
decimal within range, yet `payoutProfit * 1000` overflows and
`CalculateBetAmount` panics instead of succeeding. -/
theorem fractional_betAmount_overflow_counterexample :
    Split '/' "1/1000".data = [['1'], ['1', '0', '0', '0']] ∧
    NewIntFromString ['1'] = some 1 ∧ NewIntFromString ['1', '0', '0', '0'] = some 1000 ∧
    checkDec (2 ^ 310) = some (2 ^ 310) ∧
    fractionalOdds.CalculateBetAmount "1/1000" (2 ^ 310) = Outcome.overflow := by
  have hparts : fractionalOdds.parts "1/1000" = Except.ok (1, 1000) :=
    @fractional_parts_ok "1/1000" ['1'] ['1', '0', '0', '0'] 1 1000 (by decide) (by decide)
      (by decide) (by decide) (by decide)
  refine ⟨by decide, by decide, by decide,
    checkDec_eq_some (by norm_num [maxDecBitLen, MaxBitLen]), ?_⟩
  rw [fractional_betAmount_eq (2 ^ 310) hparts (by decide),
    checkDec_eq_none (by norm_num [maxDecBitLen, MaxBitLen])]
  rfl

theorem moneyline_payout_of_error {oddsVal : String} {e : OddsError} (amount : Int)
    (h : moneylineOdds.value oddsVal = Except.error e) :
    moneylineOdds.CalculatePayout oddsVal amount = Outcome.error e := by
  unfold moneylineOdds.CalculatePayout
  rw [h]

theorem moneyline_betAmount_of_error {oddsVal : String} {e : OddsError} (payoutProfit : Int)
    (h : moneylineOdds.value oddsVal = Except.error e) :
    moneylineOdds.CalculateBetAmount oddsVal payoutProfit = Outcome.error e := by
  unfold moneylineOdds.CalculateBetAmount
  rw [h]

/-- C6, amended: both moneyline operations return the incorrect-format error
when the string does not read as an integer and the cannot-be-zero error when
it reads as zero; on a non-zero integer neither returns an error: each returns
its result or panics on overflow of the decimal arithmetic. -/
theorem moneyline_error_cases (oddsVal : String) (amount payoutProfit : Int) :
    (NewIntFromString oddsVal.data = none →
      moneylineOdds.CalculatePayout oddsVal amount =
        Outcome.error OddsError.ErrMoneylineOddsIncorrectFormat ∧
      moneylineOdds.CalculateBetAmount oddsVal payoutProfit =
        Outcome.error OddsError.ErrMoneylineOddsIncorrectFormat) ∧
    (NewIntFromString oddsVal.data = some 0 →
      moneylineOdds.CalculatePayout oddsVal amount =
        Outcome.error OddsError.ErrMoneylineOddsCanNotBeZero ∧
      moneylineOdds.CalculateBetAmount oddsVal payoutProfit =
        Outcome.error OddsError.ErrMoneylineOddsCanNotBeZero) ∧
    (∀ m : Int, NewIntFromString oddsVal.data = some m → m ≠ 0 →
      (∃ r : Option Int, moneylineOdds.CalculatePayout oddsVal amount = Outcome.ofDec r) ∧
      (∃ r : Option Int,
        moneylineOdds.CalculateBetAmount oddsVal payoutProfit = Outcome.ofDec r)) := by
  refine ⟨fun h => ?_, fun h => ?_, fun m h hm => ?_⟩
  · have hv : moneylineOdds.value oddsVal =
        Except.error OddsError.ErrMoneylineOddsIncorrectFormat := by
      unfold moneylineOdds.value; rw [h]
    exact ⟨moneyline_payout_of_error amount hv, moneyline_betAmount_of_error payoutProfit hv⟩
  · have hv : moneylineOdds.value oddsVal =
        Except.error OddsError.ErrMoneylineOddsCanNotBeZero := by
      unfold moneylineOdds.value; rw [h]; rfl
    exact ⟨moneyline_payout_of_error amount hv, moneyline_betAmount_of_error payoutProfit hv⟩
  · have hv := moneyline_value_ok h hm
    constructor
    · unfold moneylineOdds.CalculatePayout; rw [hv]; exact ⟨_, rfl⟩
    · unfold moneylineOdds.CalculateBetAmount; rw [hv]; exact ⟨_, rfl⟩

/-- C6, witness: "1.5" and "abc" fail with the incorrect-format error, "0" with
the cannot-be-zero error. -/
theorem moneyline_error_cases_witness :
    moneylineOdds.CalculatePayout "1.5" 10 =
      Outcome.error OddsError.ErrMoneylineOddsIncorrectFormat ∧
    moneylineOdds.CalculateBetAmount "abc" 7 =
      Outcome.error OddsError.ErrMoneylineOddsIncorrectFormat ∧
    moneylineOdds.CalculatePayout "0" 10 =
      Outcome.error OddsError.ErrMoneylineOddsCanNotBeZero ∧
    moneylineOdds.CalculateBetAmount "0" 7 =
      Outcome.error OddsError.ErrMoneylineOddsCanNotBeZero :=
  ⟨((moneyline_error_cases "1.5" 10 7).1 (by decide)).1,
   ((moneyline_error_cases "abc" 10 7).1 (by decide)).2,
   ((moneyline_error_cases "0" 10 7).2.1 (by decide)).1,
   ((moneyline_error_cases "0" 10 7).2.1 (by decide)).2⟩

/-- C6 as stated fails: "-5" is a non-zero integer and the stake `2^254` is a
valid `sdkmath.Int`, yet `stake * 100` overflows the decimal and
`CalculatePayout` panics instead of succeeding. -/
theorem moneyline_negative_overflow_counterexample :
    NewIntFromString "-5".data = some (-5) ∧
    bitLenExceeds (2 ^ 254) MaxBitLen = false ∧
    moneylineOdds.CalculatePayout "-5" (2 ^ 254) = Outcome.overflow := by
  have hparse : NewIntFromString "-5".data = some (-5) := by decide
  refine ⟨hparse, ?_, ?_⟩
  · norm_num [bitLenExceeds, MaxBitLen, Nat.shiftRight_eq_div_pow]
  · rw [moneyline_payout_neg_eq (2 ^ 254) (moneyline_value_ok hparse (by decide)) (by decide),
      checkDec_eq_none (by norm_num [NewDecFromInt, precisionReuse, maxDecBitLen, MaxBitLen])]
    rfl

/-! ## Bet amounts -/

theorem toRat_sub_OneDec (d : Int) : Dec.toRat (d - OneDec) = Dec.toRat d - 1 := by
  simp only [Dec.toRat, OneDec, precisionReuse]
  push_cast
  rw [sub_div]
  norm_num

/-- C7, amended: for a decimal `d > 1` the stake is the 18-digit decimal
`Dec.Quo` computes for `payoutProfit / (d - 1)`: equal to the exact quotient
when that has at most 18 fractional digits, and otherwise less than `10^-18`
away from it; `decimalOdds.CalculateBetAmount` returns it whenever it stays
within the bit-length bound of `sdk.Dec`, and panics otherwise. -/
theorem decimal_betAmount_value (oddsVal : String) (d payoutProfit stake : Int)
    (hparse : NewDecFromStr oddsVal.data = some d) (hd : OneDec < d)
    (hstake : stake = Dec.quoRaw payoutProfit (d - OneDec)) :
    |Dec.toRat stake - Dec.toRat payoutProfit / (Dec.toRat d - 1)| < 1 / 10 ^ 18 ∧
    (∀ k : Int, Dec.toRat payoutProfit / (Dec.toRat d - 1) = Dec.toRat k → stake = k) ∧
    (|stake| < 2 ^ maxDecBitLen →
      decimalOdds.CalculateBetAmount oddsVal payoutProfit = Outcome.ok stake) ∧
    (¬ |stake| < 2 ^ maxDecBitLen →
      decimalOdds.CalculateBetAmount oddsVal payoutProfit = Outcome.overflow) := by
  have hne : d - OneDec ≠ 0 := by omega
  rw [decimal_betAmount_eq payoutProfit hparse hd, ← hstake, ← toRat_sub_OneDec]
  refine ⟨?_, fun k hk => ?_, fun h => ?_, fun h => ?_⟩
  · rw [hstake]; exact quoRaw_rat_bound payoutProfit (d - OneDec) hne
  · rw [hstake]; exact quoRaw_exact payoutProfit (d - OneDec) k hne hk
  · rw [checkDec_eq_some h]; rfl
  · rw [checkDec_eq_none h]; rfl

/-- C7, witness: odds "3.0" turn a profit of 100 into the stake 50 exactly; odds
"2.5" turn it into 66.666666666666666667, the quotient 100 / 1.5 rounded in the
last place. -/
theorem decimal_betAmount_value_witness :
    decimalOdds.CalculateBetAmount "3.0" 100000000000000000000 =
      Outcome.ok 50000000000000000000 ∧
    decimalOdds.CalculateBetAmount "2.5" 100000000000000000000 =
      Outcome.ok 66666666666666666667 :=
  ⟨(decimal_betAmount_value "3.0" 3000000000000000000 100000000000000000000
      50000000000000000000 (by decide) (by decide) (by decide)).2.2.1
      (by norm_num [maxDecBitLen, MaxBitLen]),
   (decimal_betAmount_value "2.5" 2500000000000000000 100000000000000000000
      66666666666666666667 (by decide) (by decide) (by decide)).2.2.1
      (by norm_num [maxDecBitLen, MaxBitLen])⟩

/-- C7 as stated fails: "1.001" is accepted and `2^310` is a decimal within
range, yet the stake `2^310 / 0.001 = 1000 * 2^310` is out of range and the call
panics. -/
theorem decimal_betAmount_range_counterexample :
    NewDecFromStr "1.001".data = some 1001000000000000000 ∧
    OneDec < 1001000000000000000 ∧
    checkDec (2 ^ 310) = some (2 ^ 310) ∧
    decimalOdds.CalculateBetAmount "1.001" (2 ^ 310) = Outcome.overflow := by
  have hparse : NewDecFromStr "1.001".data = some 1001000000000000000 := by decide
  have hq : Dec.quoRaw (2 ^ 310) (1001000000000000000 - OneDec) = 1000 * 2 ^ 310 := by
    apply quoRaw_exact
    · decide
    · norm_num [Dec.toRat, OneDec, precisionReuse]
  refine ⟨hparse, by decide, checkDec_eq_some (by norm_num [maxDecBitLen, MaxBitLen]), ?_⟩
  rw [decimal_betAmount_eq (2 ^ 310) hparse (by decide), hq,
    checkDec_eq_none (by norm_num [maxDecBitLen, MaxBitLen])]
  rfl

theorem toRat_mul_int (d q : Int) : Dec.toRat (d * q) = Dec.toRat d * q := by
  simp only [Dec.toRat]
  push_cast
  ring

/-- C8, amended: on "p/q" with `p`, `q` positive integers the stake is the
18-digit decimal `Dec.Quo` computes for `payoutProfit * q / p`: equal to it
when it has at most 18 fractional digits, and otherwise less than `10^-18`
away from it; `fractionalOdds.CalculateBetAmount` returns it whenever the
product and the stake stay within the bit-length bound of `sdk.Dec`, and
panics otherwise. -/
theorem fractional_betAmount_value (oddsVal : String) (first second : List Char)
    (p q payoutProfit stake : Int)
    (hsplit : Split '/' oddsVal.data = [first, second])
    (hp : NewIntFromString first = some p) (hq : NewIntFromString second = some q)
    (hppos : 0 < p) (hqpos : 0 < q)
    (hstake : stake = Dec.quoRaw (payoutProfit * q) (NewDecFromInt p)) :
    |Dec.toRat stake - Dec.toRat payoutProfit * q / p| < 1 / 10 ^ 18 ∧
    (∀ k : Int, Dec.toRat payoutProfit * q / p = Dec.toRat k → stake = k) ∧
    ((|payoutProfit * q| < 2 ^ maxDecBitLen ∧ |stake| < 2 ^ maxDecBitLen) →
      fractionalOdds.CalculateBetAmount oddsVal payoutProfit = Outcome.ok stake) ∧
    (¬ (|payoutProfit * q| < 2 ^ maxDecBitLen ∧ |stake| < 2 ^ maxDecBitLen) →
      fractionalOdds.CalculateBetAmount oddsVal payoutProfit = Outcome.overflow) := by
  have hp0 : NewDecFromInt p ≠ 0 := NewDecFromInt_ne_zero (ne_of_gt hppos)
  have hquot : Dec.toRat (payoutProfit * q) / Dec.toRat (NewDecFromInt p) =
      Dec.toRat payoutProfit * q / p := by
    rw [toRat_NewDecFromInt, toRat_mul_int]
  rw [fractional_betAmount_eq payoutProfit (fractional_parts_ok hsplit hp hq hppos hqpos) hppos]
  refine ⟨?_, fun k hk => ?_, ?_, fun h => ?_⟩
  · rw [hstake, ← hquot]; exact quoRaw_rat_bound _ _ hp0
  · rw [hstake]; exact quoRaw_exact _ _ k hp0 (hquot.trans hk)
  · rintro ⟨h1, h2⟩
    rw [checkDec_eq_some h1]
    simp only [Option.bind, ← hstake]
    rw [checkDec_eq_some h2]
    rfl
  · by_cases h1 : |payoutProfit * q| < 2 ^ maxDecBitLen
    · rw [checkDec_eq_some h1]
      simp only [Option.bind, ← hstake]
      rw [checkDec_eq_none (fun h2 => h ⟨h1, h2⟩)]
      rfl
    · rw [checkDec_eq_none h1]
      rfl

/-- C8, witness: "5/2" with profit 25 gives stake 10. -/
theorem fractional_betAmount_value_witness :
    Split '/' "5/2".data = [['5'], ['2']] ∧
    Dec.toRat 25000000000000000000 = 25 ∧ Dec.toRat 10000000000000000000 = 10 ∧
    fractionalOdds.CalculateBetAmount "5/2" 25000000000000000000 =
      Outcome.ok 10000000000000000000 :=
  ⟨by decide, by norm_num [Dec.toRat], by norm_num [Dec.toRat],
   (fractional_betAmount_value "5/2" ['5'] ['2'] 5 2 25000000000000000000
      10000000000000000000 (by decide) (by decide) (by decide) (by decide) (by decide)
      (by decide)).2.2.1
      ⟨by norm_num [maxDecBitLen, MaxBitLen], by norm_num [maxDecBitLen, MaxBitLen]⟩⟩

/-- C8 as stated fails: "3/2000" is two positive integers and `2^310` is a
decimal within range, yet `payoutProfit * 2000` overflows and the call panics. -/
theorem fractional_betAmount_value_counterexample :
    Split '/' "3/2000".data = [['3'], ['2', '0', '0', '0']] ∧
    NewIntFromString ['3'] = some 3 ∧ NewIntFromString ['2', '0', '0', '0'] = some 2000 ∧
    checkDec (2 ^ 310) = some (2 ^ 310) ∧
    fractionalOdds.CalculateBetAmount "3/2000" (2 ^ 310) = Outcome.overflow := by
  have hparts : fractionalOdds.parts "3/2000" = Except.ok (3, 2000) :=
    @fractional_parts_ok "3/2000" ['3'] ['2', '0', '0', '0'] 3 2000 (by decide) (by decide)
      (by decide) (by decide) (by decide)
  refine ⟨by decide, by decide, by decide,
    checkDec_eq_some (by norm_num [maxDecBitLen, MaxBitLen]), ?_⟩
  rw [fractional_betAmount_eq (2 ^ 310) hparts (by decide),
    checkDec_eq_none (by norm_num [maxDecBitLen, MaxBitLen])]
  rfl

theorem NewDec_hundred_ne_zero : NewDec 100 ≠ 0 := by decide

theorem toRat_NewDec_hundred : Dec.toRat (NewDec 100) = 100 := by
  norm_num [Dec.toRat, NewDec, precisionReuse]

theorem toRat_abs (x : Int) : Dec.toRat |x| = |Dec.toRat x| := by
  simp only [Dec.toRat]
  rw [abs_div, abs_of_pos (show (0 : ℚ) < 10 ^ 18 by positivity)]
  push_cast
  rfl

theorem toRat_nonneg {k : Int} (h : 0 ≤ Dec.toRat k) : 0 ≤ k := by
  simp only [Dec.toRat] at h
  have h2 : (0 : ℚ) ≤ (k : ℚ) := by
    by_contra hc
    have hk : (k : ℚ) < 0 := not_le.mp hc
    have : (k : ℚ) / 10 ^ 18 < 0 := div_neg_of_neg_of_pos hk (by positivity)
    linarith
  exact_mod_cast h2

theorem toRat_neg (k : Int) : Dec.toRat (-k) = -Dec.toRat k := by
  simp only [Dec.toRat]
  push_cast
  ring

/-- Taking the absolute value of a computed quotient keeps it as close to a
non-negative target as the quotient is to the signed one. -/
theorem abs_toRat_abs_sub_le (r : Int) (y : ℚ) :
    |Dec.toRat (|r|) - (|y|)| ≤ |Dec.toRat r - y| := by
  rw [toRat_abs]
  exact abs_abs_sub_abs_le_abs_sub _ _

/-- Unfolding of `moneylineOdds.CalculateBetAmount` on positive odds. -/
theorem moneyline_betAmount_pos_eq {oddsVal : String} {m : Int} (payoutProfit : Int)
    (hvalue : moneylineOdds.value oddsVal = Except.ok m) (hm : 0 < m) :
    moneylineOdds.CalculateBetAmount oddsVal payoutProfit =
      Outcome.ofDec (((checkDec (payoutProfit * 100)).bind
        (fun x => checkDec (Dec.quoRaw x (NewDecFromInt m)))).map Dec.Abs) := by
  unfold moneylineOdds.CalculateBetAmount
  rw [hvalue]
  simp only [if_pos hm, Dec.Quo, if_neg (NewDecFromInt_ne_zero (ne_of_gt hm))]
  rw [show NewDec 100 = NewDecFromInt 100 from rfl, Dec_Mul_NewDecFromInt]

/-- Unfolding of `moneylineOdds.CalculateBetAmount` on negative odds. -/
theorem moneyline_betAmount_neg_eq {oddsVal : String} {m : Int} (payoutProfit : Int)
    (hvalue : moneylineOdds.value oddsVal = Except.ok m) (hm : m < 0) :
    moneylineOdds.CalculateBetAmount oddsVal payoutProfit =
      Outcome.ofDec (((checkDec (payoutProfit * m)).bind
        (fun x => checkDec (Dec.quoRaw x (NewDec 100)))).map Dec.Abs) := by
  unfold moneylineOdds.CalculateBetAmount
  rw [hvalue]
  simp only [if_neg (not_lt.mpr (le_of_lt hm)), Dec.Quo, if_neg NewDec_hundred_ne_zero,
    Dec_Mul_NewDecFromInt]

/-- The last two steps of the moneyline bet amount: bit-length checks on the
product and on the quotient, then the absolute value. -/
theorem ofDec_check_quo_abs (x d2 stake : Int) (hstake : stake = |Dec.quoRaw x d2|) :
    ((|x| < 2 ^ maxDecBitLen ∧ |stake| < 2 ^ maxDecBitLen) →
      Outcome.ofDec (((checkDec x).bind (fun y => checkDec (Dec.quoRaw y d2))).map Dec.Abs) =
        Outcome.ok stake) ∧
    (¬ (|x| < 2 ^ maxDecBitLen ∧ |stake| < 2 ^ maxDecBitLen) →
      Outcome.ofDec (((checkDec x).bind (fun y => checkDec (Dec.quoRaw y d2))).map Dec.Abs) =
        Outcome.overflow) := by
  have habs : |stake| = |Dec.quoRaw x d2| := by rw [hstake, abs_abs]
  constructor
  · rintro ⟨h1, h2⟩
    rw [checkDec_eq_some h1]
    simp only [Option.bind]
    rw [checkDec_eq_some (habs ▸ h2)]
    simp only [Option.map, Dec_Abs_eq, ← hstake]
    rfl
  · intro h
    by_cases h1 : |x| < 2 ^ maxDecBitLen
    · rw [checkDec_eq_some h1]
      simp only [Option.bind]
      rw [checkDec_eq_none (fun h2 => h ⟨h1, habs ▸ h2⟩)]
      rfl
    · rw [checkDec_eq_none h1]
      rfl

/-- C9, amended: for an odds string that reads as a non-zero integer `m` and a
non-negative decimal `payoutProfit`, the stake is the 18-digit decimal the code
computes for `payoutProfit * 100 / m` when `m > 0` and for
`payoutProfit * |m| / 100` when `m < 0`: equal to that value when it has at most
18 fractional digits, and otherwise less than `10^-18` away from it;
`moneylineOdds.CalculateBetAmount` returns it whenever the product and the
stake stay within the bit-length bound of `sdk.Dec`, and panics otherwise. -/
theorem moneyline_betAmount_value (oddsVal : String) (m payoutProfit stake : Int)
    (hparse : NewIntFromString oddsVal.data = some m) (hm : m ≠ 0)
    (hpp : 0 ≤ payoutProfit)
    (hstake : stake = if 0 < m then |Dec.quoRaw (payoutProfit * 100) (NewDecFromInt m)|
      else |Dec.quoRaw (payoutProfit * m) (NewDec 100)|) :
    (0 < m →
      |Dec.toRat stake - Dec.toRat payoutProfit * 100 / m| < 1 / 10 ^ 18 ∧
      ∀ k : Int, Dec.toRat payoutProfit * 100 / m = Dec.toRat k → stake = k) ∧
    (m < 0 →
      |Dec.toRat stake - Dec.toRat payoutProfit * |(m : ℚ)| / 100| < 1 / 10 ^ 18 ∧
      ∀ k : Int, Dec.toRat payoutProfit * |(m : ℚ)| / 100 = Dec.toRat k → stake = k) ∧
    ((|payoutProfit * (if 0 < m then 100 else m)| < 2 ^ maxDecBitLen ∧
        |stake| < 2 ^ maxDecBitLen) →
      moneylineOdds.CalculateBetAmount oddsVal payoutProfit = Outcome.ok stake) ∧
    (¬ (|payoutProfit * (if 0 < m then 100 else m)| < 2 ^ maxDecBitLen ∧
        |stake| < 2 ^ maxDecBitLen) →
      moneylineOdds.CalculateBetAmount oddsVal payoutProfit = Outcome.overflow) := by
  have hvalue := moneyline_value_ok hparse hm
  have hppq : (0 : ℚ) ≤ Dec.toRat payoutProfit := by
    simp only [Dec.toRat]
    exact div_nonneg (by exact_mod_cast hpp) (by positivity)
  rcases lt_or_gt_of_ne hm with hneg | hpos
  · -- negative odds
    have hnp : ¬ 0 < m := not_lt.mpr (le_of_lt hneg)
    rw [if_neg hnp] at hstake
    simp only [if_neg hnp]
    rw [moneyline_betAmount_neg_eq payoutProfit hvalue hneg]
    have hmq : |(m : ℚ)| = -(m : ℚ) := abs_of_neg (by exact_mod_cast hneg)
    have hquot : Dec.toRat (payoutProfit * m) / Dec.toRat (NewDec 100) =
        -(Dec.toRat payoutProfit * |(m : ℚ)| / 100) := by
      rw [toRat_NewDec_hundred, toRat_mul_int, hmq]; ring
    have hy : (0 : ℚ) ≤ Dec.toRat payoutProfit * |(m : ℚ)| / 100 :=
      div_nonneg (mul_nonneg hppq (abs_nonneg _)) (by norm_num)
    refine ⟨fun h => absurd h hnp, fun _ => ⟨?_, fun k hk => ?_⟩,
      (ofDec_check_quo_abs _ _ stake hstake).1, (ofDec_check_quo_abs _ _ stake hstake).2⟩
    · have hb := quoRaw_rat_bound (payoutProfit * m) (NewDec 100) NewDec_hundred_ne_zero
      have hle := abs_toRat_abs_sub_le (Dec.quoRaw (payoutProfit * m) (NewDec 100))
        (-(Dec.toRat payoutProfit * |(m : ℚ)| / 100))
      rw [abs_neg, abs_of_nonneg hy, ← hstake] at hle
      rw [hquot] at hb
      exact lt_of_le_of_lt hle hb
    · have hk0 : 0 ≤ k := toRat_nonneg (hk ▸ hy)
      have hr : Dec.quoRaw (payoutProfit * m) (NewDec 100) = -k := by
        apply quoRaw_exact _ _ _ NewDec_hundred_ne_zero
        rw [hquot, hk, toRat_neg]
      rw [hstake, hr, abs_neg, abs_of_nonneg hk0]
  · -- positive odds
    have hpos0 : 0 < m := hpos
    rw [if_pos hpos0] at hstake
    simp only [if_pos hpos0]
    rw [moneyline_betAmount_pos_eq payoutProfit hvalue hpos0]
    have hm0 : NewDecFromInt m ≠ 0 := NewDecFromInt_ne_zero hm
    have hquot : Dec.toRat (payoutProfit * 100) / Dec.toRat (NewDecFromInt m) =
        Dec.toRat payoutProfit * 100 / m := by
      rw [toRat_NewDecFromInt, toRat_mul_int]; push_cast; rfl
    have hy : (0 : ℚ) ≤ Dec.toRat payoutProfit * 100 / m :=
      div_nonneg (mul_nonneg hppq (by norm_num)) (by exact_mod_cast le_of_lt hpos0)
    refine ⟨fun _ => ⟨?_, fun k hk => ?_⟩, fun h => absurd h (not_lt.mpr (le_of_lt hpos0)),
      (ofDec_check_quo_abs _ _ stake hstake).1, (ofDec_check_quo_abs _ _ stake hstake).2⟩
    · have hb := quoRaw_rat_bound (payoutProfit * 100) (NewDecFromInt m) hm0
      have hle := abs_toRat_abs_sub_le (Dec.quoRaw (payoutProfit * 100) (NewDecFromInt m))
        (Dec.toRat payoutProfit * 100 / m)
      rw [abs_of_nonneg hy, ← hstake] at hle
      rw [hquot] at hb
      exact lt_of_le_of_lt hle hb
    · have hk0 : 0 ≤ k := toRat_nonneg (hk ▸ hy)
      have hr : Dec.quoRaw (payoutProfit * 100) (NewDecFromInt m) = k :=
        quoRaw_exact _ _ _ hm0 (hquot.trans hk)
      rw [hstake, hr, abs_of_nonneg hk0]

/-- C9, witness: "-200" with profit 100 gives stake 200. -/
theorem moneyline_betAmount_value_witness :
    NewIntFromString "-200".data = some (-200) ∧
    Dec.toRat 100000000000000000000 = 100 ∧ Dec.toRat 200000000000000000000 = 200 ∧
    moneylineOdds.CalculateBetAmount "-200" 100000000000000000000 =
      Outcome.ok 200000000000000000000 :=
  ⟨by decide, by norm_num [Dec.toRat], by norm_num [Dec.toRat],
   (moneyline_betAmount_value "-200" (-200) 100000000000000000000 200000000000000000000
      (by decide) (by decide) (by decide) (by decide)).2.2.1
      ⟨by norm_num [maxDecBitLen, MaxBitLen], by norm_num [maxDecBitLen, MaxBitLen]⟩⟩

/-- C9 as stated fails: "-4000" is a non-zero integer and `2^310` is a
non-negative decimal within range, yet `payoutProfit * 4000` overflows and the
call panics. -/
theorem moneyline_betAmount_overflow_counterexample :
    NewIntFromString "-4000".data = some (-4000) ∧
    checkDec (2 ^ 310) = some (2 ^ 310) ∧
    moneylineOdds.CalculateBetAmount "-4000" (2 ^ 310) = Outcome.overflow := by
  have hparse : NewIntFromString "-4000".data = some (-4000) := by decide
  refine ⟨hparse, checkDec_eq_some (by norm_num [maxDecBitLen, MaxBitLen]), ?_⟩
  rw [moneyline_betAmount_neg_eq (2 ^ 310) (moneyline_value_ok hparse (by decide)) (by decide),
    checkDec_eq_none (by norm_num [maxDecBitLen, MaxBitLen])]
  rfl

/-! ## Decimal round trip -/

/-- C10, amended: for a decimal `d > 1` and an integer stake `s` with `d * s`
within the bit-length bound of `sdk.Dec`, the payout is `d * s`, the
subtraction `payout - s` succeeds, and `decimalOdds.CalculateBetAmount` on that
profit returns `s` exactly. -/
theorem decimal_round_trip (oddsVal : String) (d s : Int)
    (hparse : NewDecFromStr oddsVal.data = some d) (hd : OneDec < d)
    (hfit : |d * s| < 2 ^ maxDecBitLen) :
    decimalOdds.CalculatePayout oddsVal s = Outcome.ok (d * s) ∧
    Dec.Sub (d * s) (NewDecFromInt s) = some (d * s - NewDecFromInt s) ∧
    decimalOdds.CalculateBetAmount oddsVal (d * s - NewDecFromInt s) =
      Outcome.ok (NewDecFromInt s) := by
  have hone : OneDec = 10 ^ 18 := rfl
  have hd1 : (0 : Int) < d - OneDec := by omega
  have hprofit : d * s - NewDecFromInt s = (d - OneDec) * s := by
    unfold NewDecFromInt; rw [hone]; unfold precisionReuse; ring
  have hle1 : |(d - OneDec) * s| ≤ |d * s| := by
    rw [abs_mul, abs_mul]
    refine mul_le_mul_of_nonneg_right ?_ (abs_nonneg s)
    rw [abs_of_pos hd1, abs_of_pos (by omega)]
    omega
  have hle2 : |NewDecFromInt s| ≤ |d * s| := by
    unfold NewDecFromInt precisionReuse
    rw [mul_comm d s, abs_mul, abs_mul]
    refine mul_le_mul_of_nonneg_left ?_ (abs_nonneg s)
    rw [abs_of_pos (by norm_num), abs_of_pos (by omega)]
    omega
  have hq : Dec.quoRaw ((d - OneDec) * s) (d - OneDec) = NewDecFromInt s := by
    apply quoRaw_exact _ _ _ (ne_of_gt hd1)
    have hne : Dec.toRat (d - OneDec) ≠ 0 := by
      simp only [Dec.toRat]
      exact div_ne_zero (by exact_mod_cast ne_of_gt hd1) (by positivity)
    rw [toRat_mul_int, toRat_NewDecFromInt, mul_comm, mul_div_assoc, div_self hne, mul_one]
  refine ⟨?_, ?_, ?_⟩
  · rw [decimal_payout_eq s hparse hd, checkDec_eq_some hfit]; rfl
  · unfold Dec.Sub
    rw [hprofit]
    exact checkDec_eq_some (lt_of_le_of_lt hle1 hfit)
  · rw [decimal_betAmount_eq _ hparse hd, hprofit, hq,
      checkDec_eq_some (lt_of_le_of_lt hle2 hfit)]
    rfl

/-- C10, witness: odds "2.5" and stake 7 give payout 17.5, profit 10.5, and the
bet amount for that profit is 7 again. -/
theorem decimal_round_trip_witness :
    decimalOdds.CalculatePayout "2.5" 7 = Outcome.ok 17500000000000000000 ∧
    Dec.Sub 17500000000000000000 (NewDecFromInt 7) = some 10500000000000000000 ∧
    decimalOdds.CalculateBetAmount "2.5" 10500000000000000000 =
      Outcome.ok (NewDecFromInt 7) :=
  decimal_round_trip "2.5" 2500000000000000000 7 (by decide) (by decide)
    (by norm_num [maxDecBitLen, MaxBitLen])

/-- C10 as stated fails: odds "5000.5" are accepted and the stake `2^253` is a
valid `sdkmath.Int`, yet the payout overflows, so the round trip does not
succeed. -/
theorem decimal_round_trip_overflow_counterexample :
    NewDecFromStr "5000.5".data = some 5000500000000000000000 ∧
    OneDec < 5000500000000000000000 ∧
    bitLenExceeds (2 ^ 253) MaxBitLen = false ∧
    decimalOdds.CalculatePayout "5000.5" (2 ^ 253) = Outcome.overflow := by
  have hparse : NewDecFromStr "5000.5".data = some 5000500000000000000000 := by decide
  refine ⟨hparse, by decide, ?_, ?_⟩
  · norm_num [bitLenExceeds, MaxBitLen, Nat.shiftRight_eq_div_pow]
  · rw [decimal_payout_eq (2 ^ 253) hparse (by decide),
      checkDec_eq_none (by norm_num [maxDecBitLen, MaxBitLen])]
    rfl

/-! ## When a payout is returned -/

theorem checkDec_eq_some_iff (x y : Int) :
    checkDec x = some y ↔ |x| < 2 ^ maxDecBitLen ∧ y = x := by
  by_cases h : |x| < 2 ^ maxDecBitLen
  · rw [checkDec_eq_some h]
    constructor
    · intro e
      exact ⟨h, (Option.some.inj e).symm⟩
    · rintro ⟨_, e⟩
      rw [e]
  · rw [checkDec_eq_none h]
    constructor
    · intro e
      exact Option.noConfusion e
    · rintro ⟨h', _⟩
      exact absurd h' h

theorem ofDec_eq_ok_iff (r : Option Int) (payout : Int) :
    Outcome.ofDec r = Outcome.ok payout ↔ r = some payout := by
  cases r with
  | none =>
    constructor
    · intro e
      exact Outcome.noConfusion e
    · intro e
      exact Option.noConfusion e
  | some v =>
    constructor
    · intro e
      exact congrArg some (Outcome.ok.inj e)
    · intro e
      rw [Option.some.inj e]
      rfl

/-- The decimal payout is returned exactly when the product is in range. -/
theorem decimal_payout_ok_iff {oddsVal : String} {d : Int} (s payout : Int)
    (hparse : NewDecFromStr oddsVal.data = some d) (hd : OneDec < d) :
    decimalOdds.CalculatePayout oddsVal s = Outcome.ok payout ↔
      |d * s| < 2 ^ maxDecBitLen ∧ payout = d * s := by
  rw [decimal_payout_eq s hparse hd, ofDec_eq_ok_iff, checkDec_eq_some_iff]

/-- The fractional payout is returned exactly when the product, the profit and
the sum are in range. -/
theorem fractional_payout_ok_iff {oddsVal : String} {p q : Int} (s payout : Int)
    (hparts : fractionalOdds.parts oddsVal = Except.ok (p, q)) (hqpos : 0 < q) :
    fractionalOdds.CalculatePayout oddsVal s = Outcome.ok payout ↔
      |NewDecFromInt (s * p)| < 2 ^ maxDecBitLen ∧
      |Dec.quoRaw (NewDecFromInt (s * p)) (NewDecFromInt q)| < 2 ^ maxDecBitLen ∧
      |NewDecFromInt s + Dec.quoRaw (NewDecFromInt (s * p)) (NewDecFromInt q)|
        < 2 ^ maxDecBitLen ∧
      payout = NewDecFromInt s + Dec.quoRaw (NewDecFromInt (s * p)) (NewDecFromInt q) := by
  rw [fractional_payout_eq s hparts hqpos, ofDec_eq_ok_iff]
  by_cases h1 : |NewDecFromInt (s * p)| < 2 ^ maxDecBitLen
  · rw [checkDec_eq_some h1]
    simp only [Option.bind]
    by_cases h2 : |Dec.quoRaw (NewDecFromInt (s * p)) (NewDecFromInt q)| < 2 ^ maxDecBitLen
    · rw [checkDec_eq_some h2]
      simp only [Option.bind]
      rw [checkDec_eq_some_iff]
      exact ⟨fun h => ⟨h1, h2, h.1, h.2⟩, fun h => ⟨h.2.2.1, h.2.2.2⟩⟩
    · rw [checkDec_eq_none h2]
      exact ⟨fun e => Option.noConfusion e, fun h => absurd h.2.1 h2⟩
  · rw [checkDec_eq_none h1]
    exact ⟨fun e => Option.noConfusion e, fun h => absurd h.1 h1⟩

/-- The moneyline payout on positive odds is returned exactly when the product
and the sum are in range. -/
theorem moneyline_payout_pos_ok_iff {oddsVal : String} {m : Int} (s payout : Int)
    (hvalue : moneylineOdds.value oddsVal = Except.ok m) (hm : 0 < m) (hs : 0 ≤ s) :
    moneylineOdds.CalculatePayout oddsVal s = Outcome.ok payout ↔
      |NewDecFromInt (s * m)| < 2 ^ maxDecBitLen ∧
      |NewDecFromInt s + s * m * 10 ^ 16| < 2 ^ maxDecBitLen ∧
      payout = NewDecFromInt s + s * m * 10 ^ 16 := by
  have habs : |s * m * 10 ^ 16| = s * m * 10 ^ 16 := abs_of_nonneg (by positivity)
  rw [moneyline_payout_pos_eq s hvalue hm, ofDec_eq_ok_iff, habs]
  by_cases h1 : |NewDecFromInt (s * m)| < 2 ^ maxDecBitLen
  · rw [checkDec_eq_some h1]
    simp only [Option.bind]
    rw [checkDec_eq_some_iff]
    exact ⟨fun h => ⟨h1, h.1, h.2⟩, fun h => ⟨h.2.1, h.2.2⟩⟩
  · rw [checkDec_eq_none h1]
    exact ⟨fun e => Option.noConfusion e, fun h => absurd h.1 h1⟩

/-- The moneyline payout on negative odds is returned exactly when the product
and the sum are in range; the profit is the floor of `s * 100 / |m|` at 18
digits. -/
theorem moneyline_payout_neg_ok_iff {oddsVal : String} {m : Int} (s payout : Int)
    (hvalue : moneylineOdds.value oddsVal = Except.ok m) (hm : m < 0) (hs : 0 ≤ s) :
    moneylineOdds.CalculatePayout oddsVal s = Outcome.ok payout ↔
      |NewDecFromInt (s * 100)| < 2 ^ maxDecBitLen ∧
      |NewDecFromInt s + (s * 10 ^ 20) / (-m)| < 2 ^ maxDecBitLen ∧
      payout = NewDecFromInt s + (s * 10 ^ 20) / (-m) := by
  have hx : NewDecFromInt (s * 100) = s * 10 ^ 20 := by
    unfold NewDecFromInt precisionReuse; ring
  have habs : |(NewDecFromInt (s * 100)).tdiv m| = (s * 10 ^ 20) / (-m) := by
    rw [abs_tdiv_neg_divisor (by rw [hx]; positivity) hm, hx]
  rw [moneyline_payout_neg_eq s hvalue hm, ofDec_eq_ok_iff]
  by_cases h1 : |NewDecFromInt (s * 100)| < 2 ^ maxDecBitLen
  · rw [checkDec_eq_some h1]
    simp only [Option.bind, habs]
    rw [checkDec_eq_some_iff]
    exact ⟨fun h => ⟨h1, h.1, h.2⟩, fun h => ⟨h.2.1, h.2.2⟩⟩
  · rw [checkDec_eq_none h1]
    exact ⟨fun e => Option.noConfusion e, fun h => absurd h.1 h1⟩

/-! ## Round trips with division -/

theorem TruncateInt_NewDecFromInt (s : Int) : Dec.TruncateInt (NewDecFromInt s) = s := by
  unfold Dec.TruncateInt NewDecFromInt
  exact Int.mul_tdiv_cancel s (by decide)

/-- C11, amended: on "p/q" with `p`, `q` positive integers and an integer stake
`s`, with every intermediate decimal within the bit-length bound of `sdk.Dec`,
the payout is returned, its profit is `payout - s`, and the bet amount for that
profit is returned; it equals `s` exactly (so also after truncation to atoms)
whenever `s * p / q` has at most 18 fractional digits, and in general it lies
less than `(1 + q / p) * 10^-18` away from `s`, possibly below it. -/
theorem fractional_round_trip (oddsVal : String) (first second : List Char)
    (p q s profit stake : Int)
    (hsplit : Split '/' oddsVal.data = [first, second])
    (hp : NewIntFromString first = some p) (hq : NewIntFromString second = some q)
    (hppos : 0 < p) (hqpos : 0 < q)
    (hprofit : profit = Dec.quoRaw (NewDecFromInt (s * p)) (NewDecFromInt q))
    (hstake : stake = Dec.quoRaw (profit * q) (NewDecFromInt p))
    (hrange : |NewDecFromInt (s * p)| < 2 ^ maxDecBitLen ∧ |profit| < 2 ^ maxDecBitLen ∧
      |NewDecFromInt s + profit| < 2 ^ maxDecBitLen ∧ |profit * q| < 2 ^ maxDecBitLen ∧
      |stake| < 2 ^ maxDecBitLen) :
    fractionalOdds.CalculatePayout oddsVal s = Outcome.ok (NewDecFromInt s + profit) ∧
    Dec.Sub (NewDecFromInt s + profit) (NewDecFromInt s) = some profit ∧
    fractionalOdds.CalculateBetAmount oddsVal profit = Outcome.ok stake ∧
    |Dec.toRat stake - s| < (1 + (q : ℚ) / p) / 10 ^ 18 ∧
    (∀ k : Int, (s : ℚ) * p / q = Dec.toRat k →
      stake = NewDecFromInt s ∧ Dec.TruncateInt stake = s) := by
  obtain ⟨h1, h2, h3, h4, h5⟩ := hrange
  have hparts := fractional_parts_ok hsplit hp hq hppos hqpos
  have hp0 : NewDecFromInt p ≠ 0 := NewDecFromInt_ne_zero (ne_of_gt hppos)
  have hq0 : NewDecFromInt q ≠ 0 := NewDecFromInt_ne_zero (ne_of_gt hqpos)
  have hpq : (0 : ℚ) < p := by exact_mod_cast hppos
  have hqq : (0 : ℚ) < q := by exact_mod_cast hqpos
  have hquot1 : Dec.toRat (NewDecFromInt (s * p)) / Dec.toRat (NewDecFromInt q) =
      (s : ℚ) * p / q := by
    rw [toRat_NewDecFromInt, toRat_NewDecFromInt]; push_cast; rfl
  have hquot2 : Dec.toRat (profit * q) / Dec.toRat (NewDecFromInt p) =
      Dec.toRat profit * q / p := by
    rw [toRat_NewDecFromInt, toRat_mul_int]
  refine ⟨?_, ?_, ?_, ?_, ?_⟩
  · rw [fractional_payout_ok_iff s _ hparts hqpos, ← hprofit]
    exact ⟨h1, h2, h3, rfl⟩
  · unfold Dec.Sub
    rw [show NewDecFromInt s + profit - NewDecFromInt s = profit by ring]
    exact checkDec_eq_some h2
  · rw [fractional_betAmount_eq profit hparts hppos, checkDec_eq_some h4]
    simp only [Option.bind, ← hstake]
    rw [checkDec_eq_some h5]
    rfl
  · have hb1 : |Dec.toRat profit - (s : ℚ) * p / q| < 1 / 10 ^ 18 := by
      rw [hprofit, ← hquot1]; exact quoRaw_rat_bound _ _ hq0
    have hb2 : |Dec.toRat stake - Dec.toRat profit * q / p| < 1 / 10 ^ 18 := by
      rw [hstake, ← hquot2]; exact quoRaw_rat_bound _ _ hp0
    have e : Dec.toRat stake - s =
        (Dec.toRat stake - Dec.toRat profit * q / p) +
          (Dec.toRat profit - (s : ℚ) * p / q) * ((q : ℚ) / p) := by
      field_simp
      ring
    have hb3 : |(Dec.toRat profit - (s : ℚ) * p / q) * ((q : ℚ) / p)| ≤
        1 / 10 ^ 18 * ((q : ℚ) / p) := by
      rw [abs_mul, abs_of_pos (div_pos hqq hpq)]
      exact mul_le_mul_of_nonneg_right (le_of_lt hb1) (le_of_lt (div_pos hqq hpq))
    rw [e]
    calc |(Dec.toRat stake - Dec.toRat profit * q / p) +
          (Dec.toRat profit - (s : ℚ) * p / q) * ((q : ℚ) / p)|
        ≤ |Dec.toRat stake - Dec.toRat profit * q / p| +
          |(Dec.toRat profit - (s : ℚ) * p / q) * ((q : ℚ) / p)| := abs_add _ _
      _ < 1 / 10 ^ 18 + 1 / 10 ^ 18 * ((q : ℚ) / p) := add_lt_add_of_lt_of_le hb2 hb3
      _ = (1 + (q : ℚ) / p) / 10 ^ 18 := by ring
  · intro k hk
    have hpk : profit = k := by
      rw [hprofit]; exact quoRaw_exact _ _ k hq0 (hquot1.trans hk)
    have hst : stake = NewDecFromInt s := by
      rw [hstake]
      apply quoRaw_exact _ _ _ hp0
      rw [hquot2, hpk, ← hk, toRat_NewDecFromInt]
      field_simp
    exact ⟨hst, by rw [hst, TruncateInt_NewDecFromInt]⟩

/-- C11, witness: "5/2" with stake 10 gives profit 25, and the bet amount for
25 is 10 again. -/
theorem fractional_round_trip_witness :
    fractionalOdds.CalculatePayout "5/2" 10 =
      Outcome.ok (NewDecFromInt 10 + 25000000000000000000) ∧
    fractionalOdds.CalculateBetAmount "5/2" 25000000000000000000 =
      Outcome.ok 10000000000000000000 ∧
    Dec.TruncateInt 10000000000000000000 = 10 := by
  have h := fractional_round_trip "5/2" ['5'] ['2'] 5 2 10 25000000000000000000
    10000000000000000000 (by decide) (by decide) (by decide) (by decide) (by decide)
    (by decide) (by decide)
    ⟨by norm_num [NewDecFromInt, precisionReuse, maxDecBitLen, MaxBitLen],
     by norm_num [maxDecBitLen, MaxBitLen],
     by norm_num [NewDecFromInt, precisionReuse, maxDecBitLen, MaxBitLen],
     by norm_num [maxDecBitLen, MaxBitLen], by norm_num [maxDecBitLen, MaxBitLen]⟩
  exact ⟨h.1, h.2.2.1, (h.2.2.2.2 25000000000000000000 (by norm_num [Dec.toRat])).2⟩

/-- C11 as stated fails: on "1/3" with stake 1 the profit is
0.333333333333333333, the bet amount for it is 0.999999999999999999, and its
truncation to atoms is 0, not 1. -/
theorem fractional_round_trip_counterexample :
    fractionalOdds.CalculatePayout "1/3" 1 = Outcome.ok 1333333333333333333 ∧
    Dec.Sub 1333333333333333333 (NewDecFromInt 1) = some 333333333333333333 ∧
    fractionalOdds.CalculateBetAmount "1/3" 333333333333333333 =
      Outcome.ok 999999999999999999 ∧
    Dec.TruncateInt 999999999999999999 = 0 := by
  refine ⟨by decide, by decide, by decide, by decide⟩

/-- C12, amended: for an odds string that reads as a non-zero integer `m` and a
non-negative integer stake `s`, with every intermediate decimal within the
bit-length bound of `sdk.Dec`, the payout and the bet amount for its profit are
returned; for `m > 0` the bet amount is `s` exactly; for `m < 0` it is `s`
exactly whenever `s * 100 / |m|` has at most 18 fractional digits, and in
general it lies less than `(1 + |m| / 100) * 10^-18` away from `s`, possibly
below it, so that its truncation to atoms can be `s - 1`. -/
theorem moneyline_round_trip (oddsVal : String) (m s profit stake : Int)
    (hparse : NewIntFromString oddsVal.data = some m) (hm : m ≠ 0) (hs : 0 ≤ s)
    (hprofit : profit = if 0 < m then s * m * 10 ^ 16 else (s * 10 ^ 20) / (-m))
    (hstake : stake = if 0 < m then |Dec.quoRaw (profit * 100) (NewDecFromInt m)|
      else |Dec.quoRaw (profit * m) (NewDec 100)|)
    (hrange : |NewDecFromInt (s * (if 0 < m then m else 100))| < 2 ^ maxDecBitLen ∧
      |NewDecFromInt s + profit| < 2 ^ maxDecBitLen ∧
      |profit * (if 0 < m then 100 else m)| < 2 ^ maxDecBitLen ∧
      |stake| < 2 ^ maxDecBitLen) :
    moneylineOdds.CalculatePayout oddsVal s = Outcome.ok (NewDecFromInt s + profit) ∧
    Dec.Sub (NewDecFromInt s + profit) (NewDecFromInt s) = some profit ∧
    moneylineOdds.CalculateBetAmount oddsVal profit = Outcome.ok stake ∧
    (0 < m → stake = NewDecFromInt s ∧ Dec.TruncateInt stake = s) ∧
    (m < 0 →
      |Dec.toRat stake - s| < (1 + |(m : ℚ)| / 100) / 10 ^ 18 ∧
      ∀ k : Int, (s : ℚ) * 100 / |(m : ℚ)| = Dec.toRat k →
        stake = NewDecFromInt s ∧ Dec.TruncateInt stake = s) := by
  have hvalue := moneyline_value_ok hparse hm
  have hsq : (0 : ℚ) ≤ s := by exact_mod_cast hs
  have hnum : 0 ≤ s * 10 ^ 20 := mul_nonneg hs (by norm_num)
  have hs0 : 0 ≤ NewDecFromInt s := mul_nonneg hs (by decide)
  have hp0 : 0 ≤ profit := by
    rw [hprofit]
    split_ifs with h
    · exact mul_nonneg (mul_nonneg hs (le_of_lt h)) (by norm_num)
    · exact Int.ediv_nonneg hnum (by omega)
  have hpq0 : (0 : ℚ) ≤ Dec.toRat profit := by
    simp only [Dec.toRat]
    exact div_nonneg (by exact_mod_cast hp0) (by norm_num)
  obtain ⟨h1, h2, h3, h4⟩ := hrange
  have hsub : Dec.Sub (NewDecFromInt s + profit) (NewDecFromInt s) = some profit := by
    unfold Dec.Sub
    rw [show NewDecFromInt s + profit - NewDecFromInt s = profit by ring]
    apply checkDec_eq_some
    rw [abs_of_nonneg (by omega)] at h2
    rw [abs_of_nonneg hp0]
    omega
  rcases lt_or_gt_of_ne hm with hneg | hpos
  · -- negative odds
    have hnp : ¬ 0 < m := not_lt.mpr (le_of_lt hneg)
    rw [if_neg hnp] at hprofit hstake h1 h3
    have hmq : |(m : ℚ)| = -(m : ℚ) := abs_of_neg (by exact_mod_cast hneg)
    have hmpos : (0 : ℚ) < -(m : ℚ) := by rw [← hmq]; exact abs_pos.mpr (by exact_mod_cast hm)
    have hquot : Dec.toRat (profit * m) / Dec.toRat (NewDec 100) =
        -(Dec.toRat profit * |(m : ℚ)| / 100) := by
      rw [toRat_NewDec_hundred, toRat_mul_int, hmq]; ring
    refine ⟨?_, hsub, ?_, fun h => absurd h hnp, fun _ => ⟨?_, fun k hk => ?_⟩⟩
    · rw [moneyline_payout_neg_ok_iff s _ hvalue hneg hs, ← hprofit]
      exact ⟨h1, h2, rfl⟩
    · rw [moneyline_betAmount_neg_eq profit hvalue hneg]
      exact (ofDec_check_quo_abs _ _ stake hstake).1 ⟨h3, h4⟩
    · -- distance to the stake
      have hfloor := ediv_rat_bounds (s * 10 ^ 20) (-m) (by omega)
      rw [← hprofit] at hfloor
      have hcast : ((s * 10 ^ 20 : Int) : ℚ) / ((-m : Int) : ℚ) =
          (s : ℚ) * 10 ^ 20 / (-(m : ℚ)) := by push_cast; rfl
      rw [hcast] at hfloor
      have hb1 : |Dec.toRat profit * |(m : ℚ)| / 100 - s| < |(m : ℚ)| / 100 / 10 ^ 18 := by
        rw [hmq]
        have e : Dec.toRat profit * (-(m : ℚ)) / 100 - s =
            ((profit : ℚ) - (s : ℚ) * 10 ^ 20 / (-(m : ℚ))) * (-(m : ℚ) / 100 / 10 ^ 18) := by
          simp only [Dec.toRat]
          field_simp
          ring
        have hfac : (0 : ℚ) < -(m : ℚ) / 100 / 10 ^ 18 :=
          div_pos (div_pos hmpos (by norm_num)) (by norm_num)
        rw [e, abs_mul, abs_of_pos hfac]
        have hlt : |(profit : ℚ) - (s : ℚ) * 10 ^ 20 / (-(m : ℚ))| < 1 := by
          rw [abs_lt]; constructor <;> linarith [hfloor.1, hfloor.2]
        calc |(profit : ℚ) - (s : ℚ) * 10 ^ 20 / (-(m : ℚ))| * (-(m : ℚ) / 100 / 10 ^ 18)
            < 1 * (-(m : ℚ) / 100 / 10 ^ 18) :=
              mul_lt_mul_of_pos_right hlt hfac
          _ = -(m : ℚ) / 100 / 10 ^ 18 := one_mul _
      have hb2 := quoRaw_rat_bound (profit * m) (NewDec 100) NewDec_hundred_ne_zero
      rw [hquot] at hb2
      have hy : (0 : ℚ) ≤ Dec.toRat profit * |(m : ℚ)| / 100 :=
        div_nonneg (mul_nonneg hpq0 (abs_nonneg _)) (by norm_num)
      have hle := abs_toRat_abs_sub_le (Dec.quoRaw (profit * m) (NewDec 100))
        (-(Dec.toRat profit * |(m : ℚ)| / 100))
      rw [abs_neg, abs_of_nonneg hy, ← hstake] at hle
      have hb3 : |Dec.toRat stake - Dec.toRat profit * |(m : ℚ)| / 100| < 1 / 10 ^ 18 :=
        lt_of_le_of_lt hle hb2
      calc |Dec.toRat stake - s|
          = |(Dec.toRat stake - Dec.toRat profit * |(m : ℚ)| / 100) +
              (Dec.toRat profit * |(m : ℚ)| / 100 - s)| := by ring_nf
        _ ≤ |Dec.toRat stake - Dec.toRat profit * |(m : ℚ)| / 100| +
              |Dec.toRat profit * |(m : ℚ)| / 100 - s| := abs_add _ _
        _ < 1 / 10 ^ 18 + |(m : ℚ)| / 100 / 10 ^ 18 := add_lt_add hb3 hb1
        _ = (1 + |(m : ℚ)| / 100) / 10 ^ 18 := by ring
    · -- exact case
      have hk' : (s : ℚ) * 10 ^ 20 / (-(m : ℚ)) = (k : ℚ) := by
        rw [hmq] at hk
        simp only [Dec.toRat] at hk
        field_simp at hk ⊢
        linarith
      have hkint : s * 10 ^ 20 = k * (-m) := by
        have : (s : ℚ) * 10 ^ 20 = (k : ℚ) * (-(m : ℚ)) := by
          field_simp at hk'
          linarith
        exact_mod_cast this
      have hpk : profit = k := by
        rw [hprofit, hkint]
        exact Int.mul_ediv_cancel k (by omega)
      have hr : Dec.quoRaw (profit * m) (NewDec 100) = -NewDecFromInt s := by
        apply quoRaw_exact _ _ _ NewDec_hundred_ne_zero
        rw [hquot, toRat_neg, toRat_NewDecFromInt, hpk, hmq]
        simp only [Dec.toRat]
        rw [← hk']
        field_simp
        ring
      have hst : stake = NewDecFromInt s := by
        rw [hstake, hr, abs_neg]
        exact abs_of_nonneg hs0
      exact ⟨hst, by rw [hst, TruncateInt_NewDecFromInt]⟩
  · -- positive odds
    have hpos0 : 0 < m := hpos
    rw [if_pos hpos0] at hprofit hstake h1 h3
    have hm0 : NewDecFromInt m ≠ 0 := NewDecFromInt_ne_zero hm
    have hmq : (0 : ℚ) < m := by exact_mod_cast hpos0
    have hst : stake = NewDecFromInt s := by
      have hr : Dec.quoRaw (profit * 100) (NewDecFromInt m) = NewDecFromInt s := by
        apply quoRaw_exact _ _ _ hm0
        rw [toRat_NewDecFromInt, toRat_NewDecFromInt, hprofit]
        simp only [Dec.toRat]
        push_cast
        field_simp
        ring
      rw [hstake, hr]
      exact abs_of_nonneg hs0
    refine ⟨?_, hsub, ?_, fun _ => ⟨hst, by rw [hst, TruncateInt_NewDecFromInt]⟩,
      fun h => absurd h (not_lt.mpr (le_of_lt hpos0))⟩
    · rw [moneyline_payout_pos_ok_iff s _ hvalue hpos0 hs, ← hprofit]
      exact ⟨h1, h2, rfl⟩
    · rw [moneyline_betAmount_pos_eq profit hvalue hpos0]
      exact (ofDec_check_quo_abs _ _ stake hstake).1 ⟨h3, h4⟩

/-- C12, witness: "-200" with stake 200 gives profit 100, and the bet amount
for 100 is 200 again; "150" with stake 7 gives profit 10.5 and back 7. -/
theorem moneyline_round_trip_witness :
    moneylineOdds.CalculatePayout "-200" 200 =
      Outcome.ok (NewDecFromInt 200 + 100000000000000000000) ∧
    moneylineOdds.CalculateBetAmount "-200" 100000000000000000000 =
      Outcome.ok 200000000000000000000 ∧
    Dec.TruncateInt 200000000000000000000 = 200 ∧
    moneylineOdds.CalculateBetAmount "150" 10500000000000000000 =
      Outcome.ok 7000000000000000000 := by
  have h := moneyline_round_trip "-200" (-200) 200 100000000000000000000
    200000000000000000000 (by decide) (by decide) (by decide) (by norm_num) (by decide)
    ⟨by norm_num [NewDecFromInt, precisionReuse, maxDecBitLen, MaxBitLen],
     by norm_num [NewDecFromInt, precisionReuse, maxDecBitLen, MaxBitLen],
     by norm_num [maxDecBitLen, MaxBitLen], by norm_num [maxDecBitLen, MaxBitLen]⟩
  have h' := moneyline_round_trip "150" 150 7 10500000000000000000
    7000000000000000000 (by decide) (by decide) (by decide) (by norm_num) (by decide)
    ⟨by norm_num [NewDecFromInt, precisionReuse, maxDecBitLen, MaxBitLen],
     by norm_num [NewDecFromInt, precisionReuse, maxDecBitLen, MaxBitLen],
     by norm_num [maxDecBitLen, MaxBitLen], by norm_num [maxDecBitLen, MaxBitLen]⟩
  exact ⟨h.1, h.2.2.1, (h.2.2.2.2 (by decide)).2 100000000000000000000
    (by norm_num [Dec.toRat]) |>.2, h'.2.2.1⟩

/-- C12 as stated fails: on "-300" with stake 200 the profit is
66.666666666666666666, the bet amount for it is 199.999999999999999998, and its
truncation to atoms is 199, not 200. -/
theorem moneyline_round_trip_counterexample :
    moneylineOdds.CalculatePayout "-300" 200 = Outcome.ok 266666666666666666666 ∧
    Dec.Sub 266666666666666666666 (NewDecFromInt 200) = some 66666666666666666666 ∧
    moneylineOdds.CalculateBetAmount "-300" 66666666666666666666 =
      Outcome.ok 199999999999999999998 ∧
    Dec.TruncateInt 199999999999999999998 = 199 := by
  refine ⟨by decide, by decide, by decide, by decide⟩

/-! ## Direction of rounding -/

/-- The quotient `Dec.Quo` computes is the exact quotient rounded to the nearest
18-digit decimal: it is at most half a unit of the last place away, up to the
truncation at the 36th digit that precedes the rounding. -/
theorem quoRaw_rat_near (d d2 : Int) (h : d2 ≠ 0) :
    |Dec.toRat (Dec.quoRaw d d2) - Dec.toRat d / Dec.toRat d2|
      < (5 * 10 ^ 17 + 1) / 10 ^ 36 := by
  have hq : (d2 : ℚ) ≠ 0 := by exact_mod_cast h
  have h1 := tdiv_rat_bound (d * precisionReuse * precisionReuse) d2 h
  have h2 : |((Dec.quoRaw d d2 : Int) : ℚ) * 10 ^ 18 -
      (((d * precisionReuse * precisionReuse).tdiv d2 : Int) : ℚ)| ≤ 5 * 10 ^ 17 := by
    exact_mod_cast chop_bound ((d * precisionReuse * precisionReuse).tdiv d2)
  have hcast : ((d * precisionReuse * precisionReuse : Int) : ℚ) = (d : ℚ) * 10 ^ 36 := by
    simp only [precisionReuse]; push_cast; ring
  rw [hcast] at h1
  simp only [Dec.toRat]
  generalize ((Dec.quoRaw d d2 : Int) : ℚ) = c at h2 ⊢
  generalize (((d * precisionReuse * precisionReuse).tdiv d2 : Int) : ℚ) = t at h1 h2
  have e : c / 10 ^ 18 - (d : ℚ) / 10 ^ 18 / ((d2 : ℚ) / 10 ^ 18) =
      ((c * 10 ^ 18 - t) + (t - (d : ℚ) * 10 ^ 36 / d2)) / 10 ^ 36 := by
    field_simp
    ring
  have hX : |(c * 10 ^ 18 - t) + (t - (d : ℚ) * 10 ^ 36 / d2)| < 5 * 10 ^ 17 + 1 :=
    lt_of_le_of_lt (abs_add _ _) (add_lt_add_of_le_of_lt h2 h1)
  rw [e, abs_div, abs_of_pos (show (0 : ℚ) < 10 ^ 36 by positivity)]
  exact div_lt_div_of_pos_right hX (by positivity)

/-- C13, amended: a returned payout is the exact rational payout for decimal
odds and for positive moneyline odds, and the exact payout truncated toward
zero to 18 fractional digits for negative moneyline odds with a non-negative
stake, so in these cases it is never greater than the exact payout; for
fractional odds it is the exact payout rounded to the nearest 18-digit decimal
(exact when `stake * p / q` has at most 18 fractional digits), which can be
greater than the exact payout. -/
theorem payout_rounding_direction :
    (∀ (oddsVal : String) (d s payout : Int),
      NewDecFromStr oddsVal.data = some d → OneDec < d →
      decimalOdds.CalculatePayout oddsVal s = Outcome.ok payout →
      Dec.toRat payout = Dec.toRat d * s) ∧
    (∀ (oddsVal : String) (m s payout : Int),
      NewIntFromString oddsVal.data = some m → m ≠ 0 → 0 ≤ s →
      moneylineOdds.CalculatePayout oddsVal s = Outcome.ok payout →
      (0 < m → Dec.toRat payout = s + (s : ℚ) * m / 100) ∧
      (m < 0 → Dec.toRat payout ≤ s + (s : ℚ) * 100 / |(m : ℚ)| ∧
        s + (s : ℚ) * 100 / |(m : ℚ)| < Dec.toRat payout + 1 / 10 ^ 18)) ∧
    (∀ (oddsVal : String) (first second : List Char) (p q s payout : Int),
      Split '/' oddsVal.data = [first, second] →
      NewIntFromString first = some p → NewIntFromString second = some q →
      0 < p → 0 < q →
      fractionalOdds.CalculatePayout oddsVal s = Outcome.ok payout →
      |Dec.toRat payout - (s + (s : ℚ) * p / q)| < (5 * 10 ^ 17 + 1) / 10 ^ 36 ∧
      (∀ k : Int, (s : ℚ) * p / q = Dec.toRat k →
        Dec.toRat payout = s + (s : ℚ) * p / q)) := by
  refine ⟨?_, ?_, ?_⟩
  · intro oddsVal d s payout hparse hd hok
    rw [decimal_payout_ok_iff s payout hparse hd] at hok
    rw [hok.2, toRat_mul_int]
  · intro oddsVal m s payout hparse hm hs hok
    have hvalue := moneyline_value_ok hparse hm
    constructor
    · intro hpos
      rw [moneyline_payout_pos_ok_iff s payout hvalue hpos hs] at hok
      rw [hok.2.2, toRat_add, toRat_NewDecFromInt]
      simp only [Dec.toRat]
      push_cast
      field_simp
      ring
    · intro hneg
      rw [moneyline_payout_neg_ok_iff s payout hvalue hneg hs] at hok
      have hb := ediv_rat_bounds (s * 10 ^ 20) (-m) (by omega)
      have hmq : |(m : ℚ)| = ((-m : Int) : ℚ) := by
        rw [abs_of_neg (by exact_mod_cast hneg)]; push_cast; rfl
      have hmpos : (0 : ℚ) < ((-m : Int) : ℚ) := by
        exact_mod_cast (show (0 : Int) < -m by omega)
      have e : (s : ℚ) * 100 / ((-m : Int) : ℚ) =
          ((s * 10 ^ 20 : Int) : ℚ) / ((-m : Int) : ℚ) / 10 ^ 18 := by
        push_cast; field_simp; ring
      rw [hok.2.2, toRat_add, toRat_NewDecFromInt, hmq, e]
      simp only [Dec.toRat]
      constructor
      · exact add_le_add_left (div_le_div_of_nonneg_right hb.1 (by positivity)) _
      · rw [add_assoc, ← add_div]
        exact add_lt_add_left (div_lt_div_of_pos_right hb.2 (by positivity)) _
  · intro oddsVal first second p q s payout hsplit hp hq hppos hqpos hok
    have hparts := fractional_parts_ok hsplit hp hq hppos hqpos
    have hq0 : NewDecFromInt q ≠ 0 := NewDecFromInt_ne_zero (ne_of_gt hqpos)
    have hquot : Dec.toRat (NewDecFromInt (s * p)) / Dec.toRat (NewDecFromInt q) =
        (s : ℚ) * p / q := by
      rw [toRat_NewDecFromInt, toRat_NewDecFromInt]; push_cast; rfl
    rw [fractional_payout_ok_iff s payout hparts hqpos] at hok
    rw [hok.2.2.2, toRat_add, toRat_NewDecFromInt]
    constructor
    · have hb := quoRaw_rat_near (NewDecFromInt (s * p)) (NewDecFromInt q) hq0
      rw [hquot] at hb
      rw [add_sub_add_left_eq_sub]
      exact hb
    · intro k hk
      rw [quoRaw_exact _ _ k hq0 (hquot.trans hk), hk]

/-- C13, witness: decimal "2.5" with stake 7 pays exactly 2.5 * 7; moneyline
"-300" with stake 200 pays 266.666666666666666666, the exact payout truncated;
fractional "2/3" with stake 1 pays 1.666666666666666667, the exact payout
rounded. -/
theorem payout_rounding_direction_witness :
    Dec.toRat 17500000000000000000 = Dec.toRat 2500000000000000000 * ((7 : Int) : ℚ) ∧
    (Dec.toRat 266666666666666666666 ≤
        ((200 : Int) : ℚ) + ((200 : Int) : ℚ) * 100 / |((-300 : Int) : ℚ)| ∧
      ((200 : Int) : ℚ) + ((200 : Int) : ℚ) * 100 / |((-300 : Int) : ℚ)| <
        Dec.toRat 266666666666666666666 + 1 / 10 ^ 18) ∧
    |Dec.toRat 1666666666666666667 -
        (((1 : Int) : ℚ) + ((1 : Int) : ℚ) * ((2 : Int) : ℚ) / ((3 : Int) : ℚ))|
      < (5 * 10 ^ 17 + 1) / 10 ^ 36 :=
  ⟨payout_rounding_direction.1 "2.5" 2500000000000000000 7 17500000000000000000
      (by decide) (by decide) (by decide),
   (payout_rounding_direction.2.1 "-300" (-300) 200 266666666666666666666
      (by decide) (by decide) (by decide) (by decide)).2 (by decide),
   (payout_rounding_direction.2.2 "2/3" ['2'] ['3'] 2 3 1 1666666666666666667
      (by decide) (by decide) (by decide) (by decide) (by decide) (by decide)).1⟩

/-- C13 as stated fails: on "2/3" with stake 1 the exact payout 5/3 truncated to
18 digits is 1.666666666666666666, but the payout returned is
1.666666666666666667, which is greater than 5/3. -/
theorem fractional_payout_rounds_up_counterexample :
    fractionalOdds.CalculatePayout "2/3" 1 = Outcome.ok 1666666666666666667 ∧
    Dec.toRat 1666666666666666666 ≤ (1 : ℚ) * (2 + 3) / 3 ∧
    (1 : ℚ) * (2 + 3) / 3 < Dec.toRat 1666666666666666667 := by
  refine ⟨by decide, ?_, ?_⟩ <;> norm_num [Dec.toRat]

/-! ## Parameter validation -/

/-- C14, amended: the house module accepts a `HouseParticipationFee` exactly
when it is not negative: `validateHouseParticipationFee`, and `Params.Validate`
with a `MinDeposit` above one, return no error if and only if `0 ≤ fee`; a
negative fee gets the lower-than-zero error, a fee of one or more is accepted,
and so is the default 0.1. -/
theorem house_fee_validation (fee : Int) :
    (house.validateHouseParticipationFee (ParamValue.dec fee) = none ↔ ZeroDec ≤ fee) ∧
    (fee < ZeroDec →
      house.validateHouseParticipationFee (ParamValue.dec fee) =
        some house.ParamError.participationFeeLowerThanZero) ∧
    (∀ minDeposit : Int, OneInt < minDeposit →
      ((house.NewParams minDeposit fee).Validate = none ↔ ZeroDec ≤ fee)) ∧
    (MustNewDecFromStr house.DefaultHouseParticipationFee = some 100000000000000000 ∧
      house.validateHouseParticipationFee (ParamValue.dec 100000000000000000) = none) := by
  have hfee : house.validateHouseParticipationFee (ParamValue.dec fee) = none ↔
      ZeroDec ≤ fee := by
    unfold house.validateHouseParticipationFee
    by_cases h : fee < ZeroDec
    · simp only [if_pos h]
      exact ⟨fun e => Option.noConfusion e, fun h' => absurd h (not_lt.mpr h')⟩
    · simp only [if_neg h]
      exact ⟨fun _ => not_lt.mp h, fun _ => trivial⟩
  refine ⟨hfee, fun h => ?_, fun minDeposit hmin => ?_, by decide, by decide⟩
  · unfold house.validateHouseParticipationFee
    simp only [if_pos h]
  · unfold house.Params.Validate house.NewParams house.validateMinimumDeposit
    simp only [if_neg (not_le.mpr hmin)]
    exact hfee

/-- C14 as stated fails: the fees 1 and 2.5 are not below one, yet
`validateHouseParticipationFee` returns no error for them, and neither does
`Params.Validate` with the default `MinDeposit`. -/
theorem house_fee_upper_bound_counterexample :
    Dec.toRat OneDec = 1 ∧
    house.validateHouseParticipationFee (ParamValue.dec OneDec) = none ∧
    MustNewDecFromStr "2.5" = some 2500000000000000000 ∧
    house.validateHouseParticipationFee (ParamValue.dec 2500000000000000000) = none ∧
    (house.NewParams (NewInt house.DefaultMinDeposit) 2500000000000000000).Validate = none := by
  refine ⟨by norm_num [Dec.toRat, OneDec, precisionReuse], by decide, by decide, by decide,
    by decide⟩

/-- C15: `validateMinimumDeposit` returns an error exactly when
`MinDeposit ≤ 1` (so 1, 0 and -5 are rejected and 2 is accepted),
`Params.Validate` of the house module returns that error whenever
`MinDeposit ≤ 1`, whatever the fee, and the default parameters, `MinDeposit` 100
and fee 0.1, pass `Validate`. -/
theorem house_min_deposit_validation :
    (∀ v : Int, house.validateMinimumDeposit (ParamValue.int v) ≠ none ↔ v ≤ 1) ∧
    (∀ v : Int, v ≤ 1 →
      house.validateMinimumDeposit (ParamValue.int v) =
        some house.ParamError.minimumDepositNotMoreThanOne) ∧
    house.validateMinimumDeposit (ParamValue.int 1) ≠ none ∧
    house.validateMinimumDeposit (ParamValue.int 0) ≠ none ∧
    house.validateMinimumDeposit (ParamValue.int (-5)) ≠ none ∧
    house.validateMinimumDeposit (ParamValue.int 2) = none ∧
    (∀ p : house.Params, p.MinDeposit ≤ 1 →
      p.Validate = some house.ParamError.minimumDepositNotMoreThanOne) ∧
    house.DefaultParams =
      some { MinDeposit := 100, HouseParticipationFee := 100000000000000000 } ∧
    (∀ p : house.Params, house.DefaultParams = some p → p.Validate = none) := by
  have herr : ∀ v : Int, v ≤ 1 →
      house.validateMinimumDeposit (ParamValue.int v) =
        some house.ParamError.minimumDepositNotMoreThanOne := by
    intro v hv
    unfold house.validateMinimumDeposit
    simp only [if_pos (show v ≤ OneInt from hv)]
  have hdef : house.DefaultParams =
      some { MinDeposit := 100, HouseParticipationFee := 100000000000000000 } := by decide
  refine ⟨fun v => ⟨fun h => ?_, fun h => ?_⟩, herr, by decide, by decide, by decide,
    by decide, fun p hp => ?_, hdef, fun p hp => ?_⟩
  · by_contra hc
    apply h
    unfold house.validateMinimumDeposit
    simp only [if_neg (show ¬ v ≤ OneInt from hc)]
  · rw [herr v h]
    exact fun e => Option.noConfusion e
  · unfold house.Params.Validate
    rw [herr p.MinDeposit hp]
  · rw [hdef] at hp
    rw [← Option.some.inj hp]
    decide

/-- C16: `Params.Validate` of the bet module returns `nil` if and only if
`BatchSettlementCount > 0`, `MaxBetByUidQueryCount > 0`, `MinAmount > 1` and
`BetFee ≥ 0` (a fee of exactly zero passes); the checks run in the order
`BatchSettlementCount`, `MaxBetByUidQueryCount`, `PlacementConstraints`, and
the outcome is that of the first check that fails. -/
theorem bet_params_validate (p : bet.Params) :
    (p.Validate = bet.ValidateOutcome.nil ↔
      0 < p.BatchSettlementCount ∧ 0 < p.MaxBetByUidQueryCount ∧
      1 < p.PlacementConstraints.MinAmount ∧ 0 ≤ p.PlacementConstraints.BetFee) ∧
    (p.BatchSettlementCount = 0 →
      p.Validate =
        bet.ValidateOutcome.error bet.ParamError.batchSettlementCountMustBePositive) ∧
    (0 < p.BatchSettlementCount → p.MaxBetByUidQueryCount = 0 →
      p.Validate =
        bet.ValidateOutcome.error bet.ParamError.maxBetUIDQueryCountMustBePositive) ∧
    (0 < p.BatchSettlementCount → 0 < p.MaxBetByUidQueryCount →
      p.Validate =
        bet.validatePlacementConstraints
          (ParamValue.placementConstraints p.PlacementConstraints)) ∧
    (p.PlacementConstraints.MinAmount ≤ 1 →
      IsInt64 p.PlacementConstraints.MinAmount = true →
      bet.validatePlacementConstraints
          (ParamValue.placementConstraints p.PlacementConstraints) =
        bet.ValidateOutcome.error bet.ParamError.minAmountNotMoreThanOne) ∧
    (1 < p.PlacementConstraints.MinAmount → p.PlacementConstraints.BetFee < 0 →
      IsInt64 p.PlacementConstraints.BetFee = true →
      bet.validatePlacementConstraints
          (ParamValue.placementConstraints p.PlacementConstraints) =
        bet.ValidateOutcome.error bet.ParamError.betFeeNegative) := by
  obtain ⟨batch, maxq, minAmount, betFee⟩ := p
  simp only [bet.Params.Validate, bet.validateBatchSettlementCount,
    bet.validateMaxBetByUIDQueryCount, bet.validatePlacementConstraints, OneInt, ZeroInt]
  refine ⟨?_, ?_, ?_, ?_, ?_, ?_⟩
  · by_cases hb : batch ≤ 0
    · simp only [if_pos hb]
      exact ⟨fun e => bet.ValidateOutcome.noConfusion e, fun h => absurd h.1 (by omega)⟩
    · simp only [if_neg hb]
      by_cases hq : maxq ≤ 0
      · simp only [if_pos hq]
        exact ⟨fun e => bet.ValidateOutcome.noConfusion e, fun h => absurd h.2.1 (by omega)⟩
      · simp only [if_neg hq]
        by_cases hm : minAmount ≤ 1
        · simp only [if_pos hm]
          constructor
          · intro e
            split_ifs at e
          · intro h
            exact absurd h.2.2.1 (by omega)
        · simp only [if_neg hm]
          by_cases hf : betFee < 0
          · simp only [if_pos hf]
            constructor
            · intro e
              split_ifs at e
            · intro h
              exact absurd h.2.2.2 (by omega)
          · simp only [if_neg hf]
            exact ⟨fun _ => ⟨by omega, by omega, by omega, by omega⟩, fun _ => trivial⟩
  · intro hb
    simp only [if_pos (show batch ≤ 0 by omega)]
  · intro hb hq
    simp only [if_neg (show ¬ batch ≤ 0 by omega), if_pos (show maxq ≤ 0 by omega)]
  · intro hb hq
    simp only [if_neg (show ¬ batch ≤ 0 by omega), if_neg (show ¬ maxq ≤ 0 by omega)]
    split_ifs <;> rfl
  · intro hm h64
    simp only [if_pos hm, h64, if_true]
  · intro hm hf h64
    simp only [if_neg (show ¬ minAmount ≤ 1 by omega), if_pos hf, h64, if_true]

/-- Outside the `int64` range the placement check does not get to return its
error: with `MinAmount = -2^63 - 1` the message is formatted with `Int64()`,
which panics, and `Params.Validate` panics with it. -/
theorem bet_validate_out_of_bound_example :
    bet.Params.Validate
        { BatchSettlementCount := 1000, MaxBetByUidQueryCount := 10,
          PlacementConstraints := { MinAmount := -9223372036854775809, BetFee := 100 } } =
      bet.ValidateOutcome.outOfBound := by
  decide

/-- C17: `DefaultParams()` of the bet module has `BatchSettlementCount` 1000,
`MaxBetByUidQueryCount` 10, `MinAmount` 1000000 and `BetFee` 100, and passes
`Params.Validate`. -/
theorem bet_default_params :
    bet.DefaultParams =
      { BatchSettlementCount := 1000, MaxBetByUidQueryCount := 10,
        PlacementConstraints := { MinAmount := 1000000, BetFee := 100 } } ∧
    bet.DefaultParams.Validate = bet.ValidateOutcome.nil := by
  refine ⟨by decide, by decide⟩

/-! ## Order facts about the rounding division -/

theorem chopNonneg_mono {x y : Int} (hx : 0 ≤ x) (hxy : x ≤ y) :
    chopNonneg x ≤ chopNonneg y := by
  have hy : 0 ≤ y := le_trans hx hxy
  unfold chopNonneg
  rw [Int.tdiv_eq_ediv hx (by norm_num [precisionReuse]),
    Int.tmod_eq_emod hx (by norm_num [precisionReuse]),
    Int.tdiv_eq_ediv hy (by norm_num [precisionReuse]),
    Int.tmod_eq_emod hy (by norm_num [precisionReuse])]
  simp only [precisionReuse, fivePrecision]
  norm_num
  split_ifs <;> omega

theorem chop_mono {x y : Int} (hx : 0 ≤ x) (hxy : x ≤ y) :
    chopPrecisionAndRound x ≤ chopPrecisionAndRound y := by
  unfold chopPrecisionAndRound
  rw [if_neg (by omega), if_neg (by omega)]
  exact chopNonneg_mono hx hxy

theorem quoRaw_nonneg {a b : Int} (ha : 0 ≤ a) (hb : 0 < b) : 0 ≤ Dec.quoRaw a b := by
  unfold Dec.quoRaw
  apply chop_nonneg
  exact Int.tdiv_nonneg (mul_nonneg (mul_nonneg ha (by decide)) (by decide)) (le_of_lt hb)

theorem quoRaw_mono {a1 a2 b : Int} (h1 : 0 ≤ a1) (h12 : a1 ≤ a2) (hb : 0 < b) :
    Dec.quoRaw a1 b ≤ Dec.quoRaw a2 b := by
  have hP : (0 : Int) ≤ precisionReuse := by decide
  have n1 : 0 ≤ a1 * precisionReuse * precisionReuse := mul_nonneg (mul_nonneg h1 hP) hP
  have n2 : 0 ≤ a2 * precisionReuse * precisionReuse :=
    mul_nonneg (mul_nonneg (le_trans h1 h12) hP) hP
  have hle : a1 * precisionReuse * precisionReuse ≤ a2 * precisionReuse * precisionReuse :=
    mul_le_mul_of_nonneg_right (mul_le_mul_of_nonneg_right h12 hP) hP
  unfold Dec.quoRaw
  rw [Int.tdiv_eq_ediv n1 (le_of_lt hb), Int.tdiv_eq_ediv n2 (le_of_lt hb)]
  exact chop_mono (Int.ediv_nonneg n1 (le_of_lt hb)) (Int.ediv_le_ediv hb hle)

/-- The rounded quotient of a non-negative decimal by a positive one is the
floor of the exact quotient at 18 digits, or one unit of the last place more. -/
theorem quoRaw_floor_bounds {a b : Int} (ha : 0 ≤ a) (hb : 0 < b) :
    a * 10 ^ 18 / b ≤ Dec.quoRaw a b ∧ Dec.quoRaw a b ≤ a * 10 ^ 18 / b + 1 := by
  have hN : 0 ≤ a * precisionReuse * precisionReuse :=
    mul_nonneg (mul_nonneg ha (by decide)) (by decide)
  have hlow := Int.ediv_mul_le (a * 10 ^ 18) (ne_of_gt hb)
  have hhigh := Int.lt_ediv_add_one_mul_self (a * 10 ^ 18) hb
  have hchop := chop_bound ((a * precisionReuse * precisionReuse) / b)
  rw [abs_le] at hchop
  have e : a * precisionReuse * precisionReuse = a * 10 ^ 18 * 10 ^ 18 := rfl
  have t1 : a * 10 ^ 18 / b * 10 ^ 18 ≤ (a * precisionReuse * precisionReuse) / b := by
    apply Int.le_ediv_of_mul_le hb
    rw [e]
    calc a * 10 ^ 18 / b * 10 ^ 18 * b = (a * 10 ^ 18 / b * b) * 10 ^ 18 := by ring
      _ ≤ a * 10 ^ 18 * 10 ^ 18 := mul_le_mul_of_nonneg_right hlow (by norm_num)
  have t2 : (a * precisionReuse * precisionReuse) / b < (a * 10 ^ 18 / b + 1) * 10 ^ 18 := by
    apply Int.ediv_lt_of_lt_mul hb
    rw [e]
    calc a * 10 ^ 18 * 10 ^ 18 < ((a * 10 ^ 18 / b + 1) * b) * 10 ^ 18 :=
        mul_lt_mul_of_pos_right hhigh (by norm_num)
      _ = (a * 10 ^ 18 / b + 1) * 10 ^ 18 * b := by ring
  unfold Dec.quoRaw
  rw [Int.tdiv_eq_ediv hN (le_of_lt hb)]
  generalize (a * precisionReuse * precisionReuse) / b = t at hchop t1 t2
  generalize a * 10 ^ 18 / b = F at t1 t2
  constructor <;> omega

/-! ## Payout against stake -/

theorem NewDecFromInt_nonneg {s : Int} (hs : 0 ≤ s) : 0 ≤ NewDecFromInt s :=
  mul_nonneg hs (by decide)

theorem NewDecFromInt_pos {s : Int} (hs : 0 < s) : 0 < NewDecFromInt s :=
  mul_pos hs (by decide)

theorem ofDec_eq_overflow_of_not_ok {r : Option Int}
    (h : ∀ payout : Int, Outcome.ofDec r ≠ Outcome.ok payout) :
    Outcome.ofDec r = Outcome.overflow := by
  cases r with
  | none => rfl
  | some v => exact absurd rfl (h v)

/-- C18, amended: for each odds kind, on an accepted odds string and a
non-negative integer stake whose intermediate decimals stay within the
bit-length bound of `sdk.Dec`, `CalculatePayout` returns a payout, and that
payout is at least the stake (the profit is never negative); for decimal odds
with a positive stake it is greater than the stake. Outside the bound the call
panics and returns no payout. -/
theorem payout_at_least_stake :
    (∀ (oddsVal : String) (d s : Int),
      NewDecFromStr oddsVal.data = some d → OneDec < d → 0 ≤ s →
      (|d * s| < 2 ^ maxDecBitLen →
        ∃ payout : Int, decimalOdds.CalculatePayout oddsVal s = Outcome.ok payout ∧
          NewDecFromInt s ≤ payout ∧ (0 < s → NewDecFromInt s < payout)) ∧
      (¬ |d * s| < 2 ^ maxDecBitLen →
        decimalOdds.CalculatePayout oddsVal s = Outcome.overflow)) ∧
    (∀ (oddsVal : String) (first second : List Char) (p q s : Int),
      Split '/' oddsVal.data = [first, second] →
      NewIntFromString first = some p → NewIntFromString second = some q →
      0 < p → 0 < q → 0 ≤ s →
      ((|NewDecFromInt (s * p)| < 2 ^ maxDecBitLen ∧
          |Dec.quoRaw (NewDecFromInt (s * p)) (NewDecFromInt q)| < 2 ^ maxDecBitLen ∧
          |NewDecFromInt s + Dec.quoRaw (NewDecFromInt (s * p)) (NewDecFromInt q)|
            < 2 ^ maxDecBitLen) →
        ∃ payout : Int, fractionalOdds.CalculatePayout oddsVal s = Outcome.ok payout ∧
          NewDecFromInt s ≤ payout) ∧
      (¬ (|NewDecFromInt (s * p)| < 2 ^ maxDecBitLen ∧
          |Dec.quoRaw (NewDecFromInt (s * p)) (NewDecFromInt q)| < 2 ^ maxDecBitLen ∧
          |NewDecFromInt s + Dec.quoRaw (NewDecFromInt (s * p)) (NewDecFromInt q)|
            < 2 ^ maxDecBitLen) →
        fractionalOdds.CalculatePayout oddsVal s = Outcome.overflow)) ∧
    (∀ (oddsVal : String) (m s : Int),
      NewIntFromString oddsVal.data = some m → m ≠ 0 → 0 ≤ s →
      ((|NewDecFromInt (s * (if 0 < m then m else 100))| < 2 ^ maxDecBitLen ∧
          |NewDecFromInt s + (if 0 < m then s * m * 10 ^ 16 else (s * 10 ^ 20) / (-m))|
            < 2 ^ maxDecBitLen) →
        ∃ payout : Int, moneylineOdds.CalculatePayout oddsVal s = Outcome.ok payout ∧
          NewDecFromInt s ≤ payout) ∧
      (¬ (|NewDecFromInt (s * (if 0 < m then m else 100))| < 2 ^ maxDecBitLen ∧
          |NewDecFromInt s + (if 0 < m then s * m * 10 ^ 16 else (s * 10 ^ 20) / (-m))|
            < 2 ^ maxDecBitLen) →
        moneylineOdds.CalculatePayout oddsVal s = Outcome.overflow)) := by
  refine ⟨?_, ?_, ?_⟩
  · intro oddsVal d s hparse hd hs
    have hone : OneDec = precisionReuse := rfl
    have e : d * s - NewDecFromInt s = (d - OneDec) * s := by
      rw [hone]; unfold NewDecFromInt; ring
    constructor
    · intro hr
      refine ⟨d * s, (decimal_payout_ok_iff s _ hparse hd).mpr ⟨hr, rfl⟩, ?_, fun hpos => ?_⟩
      · have : 0 ≤ (d - OneDec) * s := mul_nonneg (by omega) hs
        omega
      · have : 0 < (d - OneDec) * s := mul_pos (by omega) hpos
        omega
    · intro hr
      rw [decimal_payout_eq s hparse hd, checkDec_eq_none hr]
      rfl
  · intro oddsVal first second p q s hsplit hp hq hppos hqpos hs
    have hparts := fractional_parts_ok hsplit hp hq hppos hqpos
    have hprofit : 0 ≤ Dec.quoRaw (NewDecFromInt (s * p)) (NewDecFromInt q) :=
      quoRaw_nonneg (NewDecFromInt_nonneg (mul_nonneg hs (le_of_lt hppos)))
        (NewDecFromInt_pos hqpos)
    constructor
    · rintro ⟨r1, r2, r3⟩
      exact ⟨_, (fractional_payout_ok_iff s _ hparts hqpos).mpr ⟨r1, r2, r3, rfl⟩,
        le_add_of_nonneg_right hprofit⟩
    · intro hr
      rw [fractional_payout_eq s hparts hqpos]
      apply ofDec_eq_overflow_of_not_ok
      intro payout hok
      rw [← fractional_payout_eq s hparts hqpos,
        fractional_payout_ok_iff s payout hparts hqpos] at hok
      exact hr ⟨hok.1, hok.2.1, hok.2.2.1⟩
  · intro oddsVal m s hparse hm hs
    have hvalue := moneyline_value_ok hparse hm
    rcases lt_or_gt_of_ne hm with hneg | hpos
    · have hnp : ¬ 0 < m := not_lt.mpr (le_of_lt hneg)
      simp only [if_neg hnp]
      have hF : 0 ≤ (s * 10 ^ 20) / (-m) :=
        Int.ediv_nonneg (mul_nonneg hs (by norm_num)) (by omega)
      constructor
      · rintro ⟨r1, r2⟩
        exact ⟨_, (moneyline_payout_neg_ok_iff s _ hvalue hneg hs).mpr ⟨r1, r2, rfl⟩,
          le_add_of_nonneg_right hF⟩
      · intro hr
        rw [moneyline_payout_neg_eq s hvalue hneg]
        apply ofDec_eq_overflow_of_not_ok
        intro payout hok
        rw [← moneyline_payout_neg_eq s hvalue hneg,
          moneyline_payout_neg_ok_iff s payout hvalue hneg hs] at hok
        exact hr ⟨hok.1, hok.2.1⟩
    · have hpos0 : 0 < m := hpos
      simp only [if_pos hpos0]
      have hF : 0 ≤ s * m * 10 ^ 16 :=
        mul_nonneg (mul_nonneg hs (le_of_lt hpos0)) (by norm_num)
      constructor
      · rintro ⟨r1, r2⟩
        exact ⟨_, (moneyline_payout_pos_ok_iff s _ hvalue hpos0 hs).mpr ⟨r1, r2, rfl⟩,
          le_add_of_nonneg_right hF⟩
      · intro hr
        rw [moneyline_payout_pos_eq s hvalue hpos0]
        apply ofDec_eq_overflow_of_not_ok
        intro payout hok
        rw [← moneyline_payout_pos_eq s hvalue hpos0,
          moneyline_payout_pos_ok_iff s payout hvalue hpos0 hs] at hok
        exact hr ⟨hok.1, hok.2.1⟩

/-- C18, witness: decimal "2.5" with stake 7, fractional "1/3" with stake 1 and
moneyline "-300" with stake 200 are within range, so each call returns a payout
and that payout is at least the stake (more than the stake for the decimal
odds). -/
theorem payout_at_least_stake_witness :
    (∃ payout : Int, decimalOdds.CalculatePayout "2.5" 7 = Outcome.ok payout ∧
      NewDecFromInt 7 ≤ payout ∧ ((0 : Int) < 7 → NewDecFromInt 7 < payout)) ∧
    (∃ payout : Int, fractionalOdds.CalculatePayout "1/3" 1 = Outcome.ok payout ∧
      NewDecFromInt 1 ≤ payout) ∧
    (∃ payout : Int, moneylineOdds.CalculatePayout "-300" 200 = Outcome.ok payout ∧
      NewDecFromInt 200 ≤ payout) :=
  ⟨(payout_at_least_stake.1 "2.5" 2500000000000000000 7 (by decide) (by decide)
      (by decide)).1 (by norm_num [maxDecBitLen, MaxBitLen]),
   (payout_at_least_stake.2.1 "1/3" ['1'] ['3'] 1 3 1 (by decide) (by decide) (by decide)
      (by decide) (by decide) (by decide)).1
      ⟨by norm_num [NewDecFromInt, precisionReuse, maxDecBitLen, MaxBitLen],
       by rw [show Dec.quoRaw (NewDecFromInt (1 * 1)) (NewDecFromInt 3) = 333333333333333333
            by decide]
          norm_num [maxDecBitLen, MaxBitLen],
       by rw [show Dec.quoRaw (NewDecFromInt (1 * 1)) (NewDecFromInt 3) = 333333333333333333
            by decide]
          norm_num [NewDecFromInt, precisionReuse, maxDecBitLen, MaxBitLen]⟩,
   (payout_at_least_stake.2.2 "-300" (-300) 200 (by decide) (by decide) (by decide)).1
      ⟨by norm_num [NewDecFromInt, precisionReuse, maxDecBitLen, MaxBitLen],
       by norm_num [NewDecFromInt, precisionReuse, maxDecBitLen, MaxBitLen]⟩⟩

/-- C18 as stated fails: "2000/3" is accepted and the stake `2^254` is a valid
non-negative `sdkmath.Int`, yet `stake * 2000` overflows the decimal, the call
panics and no payout is returned. -/
theorem payout_at_least_stake_counterexample :
    Split '/' "2000/3".data = [['2', '0', '0', '0'], ['3']] ∧
    NewIntFromString ['2', '0', '0', '0'] = some 2000 ∧ NewIntFromString ['3'] = some 3 ∧
    bitLenExceeds (2 ^ 254) MaxBitLen = false ∧
    fractionalOdds.CalculatePayout "2000/3" (2 ^ 254) = Outcome.overflow ∧
    ∀ payout : Int, fractionalOdds.CalculatePayout "2000/3" (2 ^ 254) ≠ Outcome.ok payout := by
  have hparts : fractionalOdds.parts "2000/3" = Except.ok (2000, 3) :=
    @fractional_parts_ok "2000/3" ['2', '0', '0', '0'] ['3'] 2000 3 (by decide) (by decide)
      (by decide) (by decide) (by decide)
  have hov : fractionalOdds.CalculatePayout "2000/3" (2 ^ 254) = Outcome.overflow := by
    rw [fractional_payout_eq (2 ^ 254) hparts (by decide),
      checkDec_eq_none (by norm_num [NewDecFromInt, precisionReuse, maxDecBitLen, MaxBitLen])]
    rfl
  refine ⟨by decide, by decide, by decide, ?_, hov, fun payout h => ?_⟩
  · norm_num [bitLenExceeds, MaxBitLen, Nat.shiftRight_eq_div_pow]
  · rw [hov] at h
    exact Outcome.noConfusion h

/-! ## Moneyline against fractional odds -/

/-- The floor that `quoRaw_floor_bounds` speaks of, for the fractional profit on
"100/n": it is the floor of `s * 10^20 / n`. -/
theorem fractional_floor_eq (s n : Int) :
    NewDecFromInt (s * 100) * 10 ^ 18 / NewDecFromInt n = (s * 10 ^ 20) / n := by
  unfold NewDecFromInt precisionReuse
  rw [show s * 100 * 10 ^ 18 * 10 ^ 18 = (s * 10 ^ 20) * 10 ^ 18 by ring]
  exact Int.mul_ediv_mul_of_pos_left _ _ (by norm_num)

/-- C19, amended: for a non-zero integer `m` and a non-negative integer stake,
the moneyline call on `m` and the fractional call on "m/100" (`m > 0`) have the
same outcome; for `m < 0` the moneyline call and the fractional call on
"100/|m|" have the same outcome when `|m|` divides `stake * 10^20` (the profit
has at most 18 fractional digits), and otherwise, when both return, the
fractional payout is the moneyline payout or one unit of the last place more,
because the moneyline division truncates and the fractional one rounds. -/
theorem moneyline_matches_fractional (moneyline fractional : String)
    (first second : List Char) (m s : Int)
    (hparse : NewIntFromString moneyline.data = some m) (hm : m ≠ 0) (hs : 0 ≤ s)
    (hsplit : Split '/' fractional.data = [first, second])
    (hfirst : NewIntFromString first = some (if 0 < m then m else 100))
    (hsecond : NewIntFromString second = some (if 0 < m then 100 else -m)) :
    (0 < m →
      moneylineOdds.CalculatePayout moneyline s =
        fractionalOdds.CalculatePayout fractional s) ∧
    (m < 0 →
      ((-m) ∣ s * 10 ^ 20 →
        moneylineOdds.CalculatePayout moneyline s =
          fractionalOdds.CalculatePayout fractional s) ∧
      ∀ pm pf : Int, moneylineOdds.CalculatePayout moneyline s = Outcome.ok pm →
        fractionalOdds.CalculatePayout fractional s = Outcome.ok pf →
        pm ≤ pf ∧ pf ≤ pm + 1) := by
  have hvalue := moneyline_value_ok hparse hm
  have hS : 0 ≤ NewDecFromInt s := NewDecFromInt_nonneg hs
  constructor
  · intro hpos
    rw [if_pos hpos] at hfirst hsecond
    have hparts := fractional_parts_ok hsplit hfirst hsecond hpos (by decide)
    have hprod : 0 ≤ s * m * 10 ^ 16 :=
      mul_nonneg (mul_nonneg hs (le_of_lt hpos)) (by norm_num)
    rw [moneyline_payout_pos_eq s hvalue hpos, fractional_payout_eq s hparts (by decide),
      show NewDecFromInt 100 = NewDec 100 from rfl, abs_of_nonneg hprod]
    by_cases h1 : |NewDecFromInt (s * m)| < 2 ^ maxDecBitLen
    · have h2 : |s * m * 10 ^ 16| < 2 ^ maxDecBitLen := by
        refine lt_of_le_of_lt ?_ h1
        unfold NewDecFromInt precisionReuse
        rw [abs_mul, abs_mul (s * m)]
        exact mul_le_mul_of_nonneg_left (by norm_num) (abs_nonneg _)
      rw [checkDec_eq_some h1]
      simp only [Option.bind, quoRaw_hundred]
      rw [checkDec_eq_some h2]
    · rw [checkDec_eq_none h1]
      simp only [Option.bind]
  · intro hneg
    have hnp : ¬ 0 < m := not_lt.mpr (le_of_lt hneg)
    have hn : 0 < -m := by omega
    rw [if_neg hnp] at hfirst hsecond
    have hparts := fractional_parts_ok hsplit hfirst hsecond (by decide) hn
    have hx : NewDecFromInt (s * 100) = s * 10 ^ 20 := by
      unfold NewDecFromInt precisionReuse; ring
    have hx0 : 0 ≤ NewDecFromInt (s * 100) := NewDecFromInt_nonneg (mul_nonneg hs (by decide))
    have hF : 0 ≤ (s * 10 ^ 20) / (-m) :=
      Int.ediv_nonneg (mul_nonneg hs (by norm_num)) (le_of_lt hn)
    have hbounds := quoRaw_floor_bounds hx0 (NewDecFromInt_pos hn)
    rw [fractional_floor_eq s (-m)] at hbounds
    constructor
    · intro hdvd
      have hexact : Dec.quoRaw (NewDecFromInt (s * 100)) (NewDecFromInt (-m)) =
          (s * 10 ^ 20) / (-m) := by
        obtain ⟨c, hc⟩ := hdvd
        have hdiv : (s * 10 ^ 20) / (-m) = c := by
          rw [hc]; exact Int.mul_ediv_cancel_left c (ne_of_gt hn)
        rw [hdiv]
        unfold Dec.quoRaw NewDecFromInt
        rw [show s * 100 * precisionReuse * precisionReuse * precisionReuse =
            (c * 10 ^ 18) * (-m * precisionReuse) by
          have : s * 100 * precisionReuse = s * 10 ^ 20 := by unfold precisionReuse; ring
          rw [this, hc]; unfold precisionReuse; ring]
        rw [Int.mul_tdiv_cancel _ (mul_ne_zero (ne_of_gt hn) (by decide)), chop_mul]
      have habs : |(NewDecFromInt (s * 100)).tdiv m| = (s * 10 ^ 20) / (-m) := by
        rw [abs_tdiv_neg_divisor hx0 hneg, hx]
      rw [moneyline_payout_neg_eq s hvalue hneg, fractional_payout_eq s hparts hn]
      by_cases h1 : |NewDecFromInt (s * 100)| < 2 ^ maxDecBitLen
      · rw [checkDec_eq_some h1]
        simp only [Option.bind, habs, hexact]
        by_cases h3 : |NewDecFromInt s + (s * 10 ^ 20) / (-m)| < 2 ^ maxDecBitLen
        · have h2 : |(s * 10 ^ 20) / (-m)| < 2 ^ maxDecBitLen := by
            rw [abs_of_nonneg (by omega)] at h3
            rw [abs_of_nonneg hF]
            omega
          rw [checkDec_eq_some h2]
        · by_cases h2 : |(s * 10 ^ 20) / (-m)| < 2 ^ maxDecBitLen
          · rw [checkDec_eq_some h2]
          · rw [checkDec_eq_none h2, checkDec_eq_none h3]
      · rw [checkDec_eq_none h1]
        simp only [Option.bind]
    · intro pm pf hpm hpf
      rw [moneyline_payout_neg_ok_iff s pm hvalue hneg hs] at hpm
      rw [fractional_payout_ok_iff s pf hparts hn] at hpf
      rw [hpm.2.2, hpf.2.2.2]
      constructor <;> omega

/-- C19, witness: "150" and "150/100" pay the same 17.5 on the stake 7; "-200"
and "100/200" pay the same 300 on the stake 200. -/
theorem moneyline_matches_fractional_witness :
    moneylineOdds.CalculatePayout "150" 7 = fractionalOdds.CalculatePayout "150/100" 7 ∧
    moneylineOdds.CalculatePayout "-200" 200 =
      fractionalOdds.CalculatePayout "100/200" 200 :=
  ⟨(moneyline_matches_fractional "150" "150/100" ['1', '5', '0'] ['1', '0', '0'] 150 7
      (by decide) (by decide) (by decide) (by decide) (by decide) (by decide)).1 (by decide),
   ((moneyline_matches_fractional "-200" "100/200" ['1', '0', '0'] ['2', '0', '0'] (-200) 200
      (by decide) (by decide) (by decide) (by decide) (by decide) (by decide)).2
      (by decide)).1 (by norm_num)⟩

/-- C19 as stated fails: "-300" and "100/300" quote the same price, but on the
stake 200 the moneyline payout is 266.666666666666666666 and the fractional
payout is 266.666666666666666667. -/
theorem moneyline_fractional_differ_counterexample :
    moneylineOdds.CalculatePayout "-300" 200 = Outcome.ok 266666666666666666666 ∧
    fractionalOdds.CalculatePayout "100/300" 200 = Outcome.ok 266666666666666666667 ∧
    moneylineOdds.CalculatePayout "-300" 200 ≠
      fractionalOdds.CalculatePayout "100/300" 200 := by
  refine ⟨by decide, by decide, by decide⟩

/-! ## Monotonicity in the stake -/

theorem abs_lt_of_nonneg_le {x y B : Int} (hx : 0 ≤ x) (hxy : x ≤ y) (hy : |y| < B) :
    |x| < B := by
  rw [abs_of_nonneg hx]
  exact lt_of_le_of_lt hxy (lt_of_le_of_lt (le_abs_self y) hy)

theorem NewDecFromInt_mono {a b : Int} (h : a ≤ b) : NewDecFromInt a ≤ NewDecFromInt b :=
  mul_le_mul_of_nonneg_right h (by decide)

/-- C20: for each odds kind, an accepted odds string and integer stakes
`0 ≤ s1 ≤ s2`, whenever `CalculatePayout` returns a payout for `s2` it returns
one for `s1` too, and the payout for `s1` is not greater than the payout for
`s2`, the rounding of the profit notwithstanding. -/
theorem payout_monotone :
    (∀ (oddsVal : String) (d s1 s2 p2 : Int),
      NewDecFromStr oddsVal.data = some d → OneDec < d → 0 ≤ s1 → s1 ≤ s2 →
      decimalOdds.CalculatePayout oddsVal s2 = Outcome.ok p2 →
      ∃ p1 : Int, decimalOdds.CalculatePayout oddsVal s1 = Outcome.ok p1 ∧ p1 ≤ p2) ∧
    (∀ (oddsVal : String) (first second : List Char) (p q s1 s2 p2 : Int),
      Split '/' oddsVal.data = [first, second] →
      NewIntFromString first = some p → NewIntFromString second = some q →
      0 < p → 0 < q → 0 ≤ s1 → s1 ≤ s2 →
      fractionalOdds.CalculatePayout oddsVal s2 = Outcome.ok p2 →
      ∃ p1 : Int, fractionalOdds.CalculatePayout oddsVal s1 = Outcome.ok p1 ∧ p1 ≤ p2) ∧
    (∀ (oddsVal : String) (m s1 s2 p2 : Int),
      NewIntFromString oddsVal.data = some m → m ≠ 0 → 0 ≤ s1 → s1 ≤ s2 →
      moneylineOdds.CalculatePayout oddsVal s2 = Outcome.ok p2 →
      ∃ p1 : Int, moneylineOdds.CalculatePayout oddsVal s1 = Outcome.ok p1 ∧ p1 ≤ p2) := by
  refine ⟨?_, ?_, ?_⟩
  · intro oddsVal d s1 s2 p2 hparse hd h1 h12 hok
    rw [decimal_payout_ok_iff s2 p2 hparse hd] at hok
    have hd0 : 0 ≤ d := le_of_lt (lt_trans (by decide) hd)
    have hle : d * s1 ≤ d * s2 := mul_le_mul_of_nonneg_left h12 hd0
    refine ⟨d * s1, ?_, by rw [hok.2]; exact hle⟩
    rw [decimal_payout_ok_iff s1 _ hparse hd]
    exact ⟨abs_lt_of_nonneg_le (mul_nonneg hd0 h1) hle hok.1, rfl⟩
  · intro oddsVal first second p q s1 s2 p2 hsplit hp hq hppos hqpos h1 h12 hok
    have hparts := fractional_parts_ok hsplit hp hq hppos hqpos
    rw [fractional_payout_ok_iff s2 p2 hparts hqpos] at hok
    obtain ⟨r1, r2, r3, rfl⟩ := hok
    have hA1 : 0 ≤ NewDecFromInt (s1 * p) :=
      NewDecFromInt_nonneg (mul_nonneg h1 (le_of_lt hppos))
    have hA : NewDecFromInt (s1 * p) ≤ NewDecFromInt (s2 * p) :=
      NewDecFromInt_mono (mul_le_mul_of_nonneg_right h12 (le_of_lt hppos))
    have hQ : 0 < NewDecFromInt q := NewDecFromInt_pos hqpos
    have hP1 := quoRaw_nonneg hA1 hQ
    have hP := quoRaw_mono hA1 hA hQ
    have hS1 := NewDecFromInt_nonneg h1
    have hS := NewDecFromInt_mono h12
    refine ⟨NewDecFromInt s1 + Dec.quoRaw (NewDecFromInt (s1 * p)) (NewDecFromInt q), ?_,
      add_le_add hS hP⟩
    rw [fractional_payout_ok_iff s1 _ hparts hqpos]
    exact ⟨abs_lt_of_nonneg_le hA1 hA r1, abs_lt_of_nonneg_le hP1 hP r2,
      abs_lt_of_nonneg_le (add_nonneg hS1 hP1) (add_le_add hS hP) r3, rfl⟩
  · intro oddsVal m s1 s2 p2 hparse hm h1 h12 hok
    have hvalue := moneyline_value_ok hparse hm
    have h2 : 0 ≤ s2 := le_trans h1 h12
    have hS1 := NewDecFromInt_nonneg h1
    have hS := NewDecFromInt_mono h12
    rcases lt_or_gt_of_ne hm with hneg | hpos
    · rw [moneyline_payout_neg_ok_iff s2 p2 hvalue hneg h2] at hok
      obtain ⟨r1, r2, rfl⟩ := hok
      have hn : 0 < -m := by omega
      have hA1 : 0 ≤ NewDecFromInt (s1 * 100) :=
        NewDecFromInt_nonneg (mul_nonneg h1 (by decide))
      have hA : NewDecFromInt (s1 * 100) ≤ NewDecFromInt (s2 * 100) :=
        NewDecFromInt_mono (mul_le_mul_of_nonneg_right h12 (by decide))
      have hF1 : 0 ≤ (s1 * 10 ^ 20) / (-m) :=
        Int.ediv_nonneg (mul_nonneg h1 (by norm_num)) (le_of_lt hn)
      have hF : (s1 * 10 ^ 20) / (-m) ≤ (s2 * 10 ^ 20) / (-m) :=
        Int.ediv_le_ediv hn (mul_le_mul_of_nonneg_right h12 (by norm_num))
      refine ⟨NewDecFromInt s1 + (s1 * 10 ^ 20) / (-m), ?_, add_le_add hS hF⟩
      rw [moneyline_payout_neg_ok_iff s1 _ hvalue hneg h1]
      exact ⟨abs_lt_of_nonneg_le hA1 hA r1,
        abs_lt_of_nonneg_le (add_nonneg hS1 hF1) (add_le_add hS hF) r2, rfl⟩
    · rw [moneyline_payout_pos_ok_iff s2 p2 hvalue hpos h2] at hok
      obtain ⟨r1, r2, rfl⟩ := hok
      have hA1 : 0 ≤ NewDecFromInt (s1 * m) :=
        NewDecFromInt_nonneg (mul_nonneg h1 (le_of_lt hpos))
      have hA : NewDecFromInt (s1 * m) ≤ NewDecFromInt (s2 * m) :=
        NewDecFromInt_mono (mul_le_mul_of_nonneg_right h12 (le_of_lt hpos))
      have hF1 : 0 ≤ s1 * m * 10 ^ 16 :=
        mul_nonneg (mul_nonneg h1 (le_of_lt hpos)) (by norm_num)
      have hF : s1 * m * 10 ^ 16 ≤ s2 * m * 10 ^ 16 :=
        mul_le_mul_of_nonneg_right (mul_le_mul_of_nonneg_right h12 (le_of_lt hpos))
          (by norm_num)
      refine ⟨NewDecFromInt s1 + s1 * m * 10 ^ 16, ?_, add_le_add hS hF⟩
      rw [moneyline_payout_pos_ok_iff s1 _ hvalue hpos h1]
      exact ⟨abs_lt_of_nonneg_le hA1 hA r1,
        abs_lt_of_nonneg_le (add_nonneg hS1 hF1) (add_le_add hS hF) r2, rfl⟩

/-- C20, witness: on "1/3" the stake 2 pays 2.666666666666666667, so the stake 1
pays something too, and not more; likewise decimal "2.5" on 7 and 3, moneyline
"-300" on 200 and 100. -/
theorem payout_monotone_witness :
    (∃ p1 : Int, decimalOdds.CalculatePayout "2.5" 3 = Outcome.ok p1 ∧
      p1 ≤ 17500000000000000000) ∧
    (∃ p1 : Int, fractionalOdds.CalculatePayout "1/3" 1 = Outcome.ok p1 ∧
      p1 ≤ 2666666666666666667) ∧
    (∃ p1 : Int, moneylineOdds.CalculatePayout "-300" 100 = Outcome.ok p1 ∧
      p1 ≤ 266666666666666666666) :=
  ⟨payout_monotone.1 "2.5" 2500000000000000000 3 7 17500000000000000000 (by decide)
      (by decide) (by decide) (by decide) (by decide),
   payout_monotone.2.1 "1/3" ['1'] ['3'] 1 3 1 2 2666666666666666667 (by decide) (by decide)
      (by decide) (by decide) (by decide) (by decide) (by decide) (by decide),
   payout_monotone.2.2 "-300" (-300) 100 200 266666666666666666666 (by decide) (by decide)
      (by decide) (by decide) (by decide)⟩

end Sge
